import Mathlib

/-!
# cocaine-core: schedulers, overseer and engine (C++ namespace `yappi`)

A shallow embedding of `include/schedulers.hpp` and `src/engine.cpp`, and of the parts of
`src/auth.cpp` and `src/context.cpp` that the statements are about.

* Sockets are modelled by the list of messages sent on them, oldest first.
* The plugin (`source_t`) is an oracle: the outcome of its n-th `fetch()` and of its n-th
  `reschedule()` call is a function of n, and the state counts the calls made so far, so a
  plugin may answer differently on every call.
* `Json::Value` objects are records of the members the code reads, each with the JSON kind
  the control channel gives it; `get(name, default)` is `Option.getD`.
* `ev::tstamp` and the scheduler interval are `double`s in the source. Timestamps are
  rationals here (only their order is used). The interval is kept as the integer number of
  milliseconds `n` it is computed from; the double is `n / 1000.0`.
* The storage, the digest and the `CAP_MANUAL` flag are declared outside the files at hand:
  the storage is a key/value map, the other two are parameters (`Env`).
* The registry and the construction of threads surround the engine: whether the n-th
  instantiation and the n-th thread construction return or raise is given by a `Host`.
  A future is its serialized form; `fulfill` is recorded in the list of fulfilled futures.
* The loop of the overseer calls a handler only while its watcher is active and stops a
  timer without repeat when it expires (`loop_control`, `loop_timer`, `loop_prepare`,
  `loop_trigger`); this is the behaviour of the event library, not code of the repository.
* `auth.cpp` and `context.cpp` are embedded after the engine: `EVP_VerifyFinal` is a
  parameter of `auth_t.verify`; whether an actor runs is a field of `actor_t`; `dynamic_t`
  is an inductive type of its value kinds.
* The destructor `~scheduler_base_t` calls `m_watcher->is_active()`, and `m_watcher` is set
  by `start()` only: destroying a scheduler that was never started dereferences a null
  pointer. Such a call is a fault (`scheduler_base_t.destructor_faults`): the behaviour is
  undefined and the process does not get past it. `schedule` destroys a scheduler it has not
  started when the constructor throws and when the key is in the table already
  (`overseer_t.schedule_call`). The handlers over batches (`control_event`, `loop`) describe
  the overseer for as long as no call faults; `overseer_t.control_run` stops at the fault.
-/

namespace yappi

/-! ## Text of a double on a stream -/

/-- Nearest integer to `num / den`, ties going to the even neighbour. -/
def round_half_even (num den : Nat) : Nat :=
  let q := num / den
  let r := num % den
  if 2 * r > den ∨ (2 * r = den ∧ q % 2 = 1) then q + 1 else q

/-- Least binary exponent `e`, searched upwards from the given one, for which
`n * 2^e / 1000` reaches `2^52` (the 53-bit significand of a double). -/
def binary_scale : Nat → Nat → Nat → Nat
  | 0, _, e => e
  | fuel + 1, n, e => if 2 ^ 52 * 1000 ≤ n * 2 ^ e then e else binary_scale fuel n (e + 1)

/-- The double `n / 1000.0` for a C `int` `0 < n < 2^31`, as the exact fraction
(numerator, denominator) the correctly rounded division produces. -/
def double_of_millis (n : Nat) : Nat × Nat :=
  let e := binary_scale 64 n 0
  (round_half_even (n * 2 ^ e) 1000, 2 ^ e)

/-- Drop the zeros that end a digit list. -/
def strip_zeros (ds : List Char) : List Char :=
  (ds.reverse.dropWhile (fun c => c = '0')).reverse

/-- Decimal digits of `n`, padded with leading zeros to `width` digits. -/
def pad_digits (width n : Nat) : List Char :=
  let ds := Nat.toDigits 10 n
  List.replicate (width - ds.length) '0' ++ ds

/-- Six significant decimal digits of `num / den`, whose decimal exponent is `k - 3`. -/
def significand (num den k : Nat) : Nat :=
  if k ≤ 8 then round_half_even (num * 10 ^ (8 - k)) den
  else round_half_even num (den * 10 ^ (k - 8))

/-- Text of the fraction `num / den` (at least 1/1000) in the general notation of a stream
in its default state: six significant digits, fixed notation while the decimal exponent is
below six and scientific notation from there on, the zeros ending the fraction and a bare
point removed. -/
def general6 (num den : Nat) : String :=
  let k0 := (Nat.toDigits 10 (num * 1000 / den)).length - 1
  let d0 := significand num den k0
  let k := if d0 = 10 ^ 6 then k0 + 1 else k0
  let d := if d0 = 10 ^ 6 then 10 ^ 5 else d0
  if k ≤ 8 then
    let w := 8 - k
    let frac := strip_zeros (pad_digits w (d % 10 ^ w))
    let whole := Nat.toDigits 10 (d / 10 ^ w)
    String.mk (if frac = [] then whole else whole ++ '.' :: frac)
  else
    let frac := strip_zeros (pad_digits 5 (d % 10 ^ 5))
    let lead := Nat.toDigits 10 (d / 10 ^ 5)
    String.mk ((if frac = [] then lead else lead ++ '.' :: frac)
      ++ 'e' :: '+' :: pad_digits 2 (k - 3))

/-- Text that `operator<<` gives for the double `n / 1000.0` on a stream in its default state;
this is what `boost::format` substitutes for a `%N%` directive fed a double. -/
def stream_millis (n : Nat) : String :=
  general6 (double_of_millis n).1 (double_of_millis n).2

/-! ## Data model -/

/-- Type `source_t::dict_t`: the mapping a plugin fetch returns. -/
abbrev dict_t := List (String × String)

/-- Type `ev::tstamp`: a point in time, in seconds. -/
abbrev tstamp := ℚ

/-- The plugin instance `source_t`, seen from the core: identity, capabilities and the
outcomes of its successive `fetch()` and `reschedule()` calls (call number n, from 0). -/
structure source_t where
  uri : String
  hash : String
  capabilities : Nat
  fetch : Nat → Except String dict_t
  reschedule : Nat → tstamp

/-- Parts declared outside the files at hand: the capability flag `CAP_MANUAL` and the
digest `m_digest.get` used for storage keys. -/
structure Env where
  CAP_MANUAL : Nat
  digest : String → String

/-- The `args` object of a request. -/
structure Args where
  type : Option String := none
  interval : Option Int := none
  transient : Option Bool := none
  other : List (String × String) := []
  deriving DecidableEq, Repr

/-- The serialized future of a request. -/
structure Future where
  token : String
  deriving DecidableEq, Repr

/-- A control message read from the pipe. -/
structure Message where
  command : String
  future : Option Future := none
  args : Args := {}
  deriving DecidableEq, Repr

/-- Value of `message["future"]["token"].asString()`: the empty string without a future. -/
def Message.token (message : Message) : String :=
  match message.future with
  | some f => f.token
  | none => ""

/-- A message on the reply channel: the future it answers and the result object, as the list
of its members. -/
structure Reply where
  future : Option Future
  result : List (String × String)
  deriving DecidableEq, Repr

/-- A message on the reaper channel. -/
structure ReaperMessage where
  engine : String
  thread : String
  deriving DecidableEq, Repr

/-- The object persisted for a scheduled task. -/
structure Record where
  url : String
  args : Args
  token : String
  deriving DecidableEq, Repr

/-- The storage boundary, as a key/value map: the list of the objects put, newest first. -/
structure storage_t where
  objects : List (String × Record)
  deriving DecidableEq, Repr

/-- Method `storage_t::exists`. -/
def storage_t.has (storage : storage_t) (id : String) : Bool :=
  storage.objects.any (fun o => o.1 = id)

/-- Method `storage_t::put`. -/
def storage_t.put (storage : storage_t) (id : String) (object : Record) : storage_t :=
  { objects := (id, object) :: storage.objects }

/-- Method `storage_t::get`: the newest object put under the id. -/
def storage_t.get (storage : storage_t) (id : String) : Option Record :=
  (storage.objects.find? (fun o => o.1 = id)).map Prod.snd

/-! ## Schedulers (`schedulers.hpp`) -/

/-- The two scheduler classes; the automatic one carries the integer `n` of milliseconds its
`m_interval = n / 1000.0` is computed from. -/
inductive Variant where
  | automatic (millis : Int)
  | manual
  deriving DecidableEq, Repr

/-- Class `scheduler_base_t`: the key and the periodic watcher. The pointer `m_watcher` is
null from the construction on (`false`) until `start()` makes it point to a running watcher
(`true`); nothing else assigns it. -/
structure scheduler_base_t where
  m_key : String
  variant : Variant
  m_watcher : Bool
  deriving DecidableEq, Repr

/-- The template argument of `overseer_t::schedule`. -/
inductive SchedulerType where
  | auto_scheduler_t
  | manual_scheduler_t
  deriving DecidableEq, Repr

/-- Constructor `scheduler_base_t::scheduler_base_t`: the key is empty and `m_watcher` is
null. -/
def scheduler_base_t.construct (variant : Variant) : scheduler_base_t :=
  scheduler_base_t.mk "" variant false

/-- Destructor `scheduler_base_t::~scheduler_base_t`, whose body is
`if(m_watcher->is_active()) m_watcher->stop();`: whether the call faults, which it does by
dereferencing `m_watcher` while it is null. -/
def scheduler_base_t.destructor_faults (scheduler : scheduler_base_t) : Bool :=
  !scheduler.m_watcher

/-- Outcome of the expression `new SchedulerType(...)`: the scheduler built (`ok`), an
exception with the given text on its way to a handler (`throws`), or a fault while the
exception with the given text unwinds (`faults`). -/
inductive Construction where
  | ok (scheduler : scheduler_base_t)
  | throws (what : String)
  | faults (what : String)
  deriving DecidableEq, Repr

/-- A throw out of the constructor of a derived scheduler class. The base subobject is
complete by then, so it is destroyed before the exception leaves the expression, and the
exception gets to a handler only if that destructor call does not fault. -/
def Construction.unwind (base : scheduler_base_t) (what : String) : Construction :=
  if base.destructor_faults then .faults what else .throws what

/-- Constructor `auto_scheduler_t::auto_scheduler_t`. After the base is constructed the
member `m_interval` is initialised from `args.get("interval", 0).asInt() / 1000.0`; `asInt()`
yields a C `int`, and for a number outside the range of `int` the JSON library raises
instead of returning (the text of its exception stands for the one of the library; no
handler gets to see it). The body throws when `m_interval <= 0`; that test on the double
`n / 1000.0` is the test `n <= 0` on the integer (see `m_interval_nonpos_iff`). -/
def auto_scheduler_t (source : source_t) (args : Args) : Construction :=
  let n := args.interval.getD 0
  if n < -(2 ^ 31) ∨ 2 ^ 31 ≤ n then
    Construction.unwind (scheduler_base_t.construct (.automatic n)) "integer out of range"
  else if n ≤ 0 then
    Construction.unwind (scheduler_base_t.construct (.automatic n)) "invalid interval"
  else
    .ok { scheduler_base_t.construct (.automatic n) with
          m_key := "auto:" ++ source.hash ++ "@" ++ stream_millis n.toNat }

/-- Constructor `manual_scheduler_t::manual_scheduler_t`: the body throws when the plugin
does not advertise `CAP_MANUAL`. -/
def manual_scheduler_t (env : Env) (source : source_t) (_args : Args) : Construction :=
  if source.capabilities &&& env.CAP_MANUAL = 0 then
    Construction.unwind (scheduler_base_t.construct .manual)
      "manual scheduling is not supported"
  else
    .ok { scheduler_base_t.construct .manual with m_key := "manual:" ++ source.hash }

/-- Expression `new SchedulerType(..., message["args"])`. -/
def SchedulerType.construct (env : Env) (source : source_t) :
    SchedulerType → Args → Construction
  | .auto_scheduler_t, args => yappi.auto_scheduler_t source args
  | .manual_scheduler_t, args => yappi.manual_scheduler_t env source args

/-- Method `scheduler_base_t::start`: the periodic watcher is created and started. -/
def scheduler_base_t.start (scheduler : scheduler_base_t) : scheduler_base_t :=
  { scheduler with m_watcher := true }

/-- Method `manual_scheduler_t::reschedule`, with `max(a, b)` expanded as the header
defines it, `((a) >= (b) ? (a) : (b))`: the argument `m_source->reschedule()` is written out
once in the test and once in the second branch, and each occurrence is a call. `calls` is
the number of `reschedule()` calls the plugin has served before; the result is the
timestamp and the number of calls served afterwards. -/
def manual_scheduler_t.reschedule (source : source_t) (calls : Nat) (now : tstamp) :
    tstamp × Nat :=
  if now ≥ source.reschedule calls then (now, calls + 1)
  else (source.reschedule (calls + 1), calls + 2)

/-! ## Overseer (`engine.cpp`) -/

/-- Class `overseer_t`. `m_slaves` is the scheduler table (key to scheduler), `m_suicide` the
idle timer (`none` when stopped, its timeout in seconds when running), `m_io` and `m_cleanup`
say whether the control-socket and the cache-cleanup watchers run. `m_futures` and
`m_reaper` hold what was sent on the reply and the reaper sockets, `fetches` counts the
calls made to the plugin `fetch()`, `starts` lists the keys of the schedulers on which
`start()` was called. -/
structure overseer_t where
  m_slaves : List (String × scheduler_base_t)
  m_subscriptions : List (String × String)
  m_storage : storage_t
  m_suicide : Option Nat
  m_io : Bool
  m_cleanup : Bool
  m_cache : dict_t
  m_cached : Bool
  m_futures : List Reply
  m_reaper : List ReaperMessage
  fetches : Nat
  starts : List String
  deriving DecidableEq, Repr

/-- Keys of the scheduler table. -/
def overseer_t.keys (s : overseer_t) : List String :=
  s.m_slaves.map Prod.fst

/-- Call `m_slaves.find(key)`. -/
def slave_find (slaves : List (String × scheduler_base_t)) (key : String) :
    Option scheduler_base_t :=
  (slaves.find? (fun e => e.1 = key)).map Prod.snd

/-- Call `m_slaves.insert(key, scheduler)` of a map with unique keys: an entry whose key is
taken already is not replaced. -/
def slave_insert (slaves : List (String × scheduler_base_t)) (key : String)
    (scheduler : scheduler_base_t) : List (String × scheduler_base_t) :=
  if (slave_find slaves key).isSome then slaves else slaves ++ [(key, scheduler)]

/-- Constructor `overseer_t::overseer_t`: the three watchers are started, the idle timer with
600 seconds, and nothing is cached. -/
def overseer_t.init (storage : storage_t) : overseer_t :=
  { m_slaves := [], m_subscriptions := [], m_storage := storage,
    m_suicide := some 600, m_io := true, m_cleanup := true,
    m_cache := [], m_cached := false,
    m_futures := [], m_reaper := [], fetches := 0, starts := [] }

/-- Modelled from the spec: `respond(future, result)`, declared in the absent `engine.hpp`,
sends one reply carrying the future and the result on the reply channel. -/
def overseer_t.respond (s : overseer_t) (future : Option Future)
    (result : List (String × String)) : overseer_t :=
  { s with m_futures := s.m_futures ++ [{ future := future, result := result }] }

/-- Method `overseer_t::suicide`. -/
def overseer_t.suicide (source : source_t) (s : overseer_t) : overseer_t :=
  { s with m_reaper := s.m_reaper ++ [{ engine := source.uri, thread := "default" }] }

/-- The cache-cleanup hook `overseer_t::operator()(ev::prepare&, int)`. -/
def overseer_t.prepare_event (s : overseer_t) : overseer_t :=
  { s with m_cache := [], m_cached := false }

/-- Method `overseer_t::fetch`: the mapping returned and the state afterwards. -/
def overseer_t.fetch (source : source_t) (s : overseer_t) : dict_t × overseer_t :=
  if s.m_cached then (s.m_cache, s)
  else
    match source.fetch s.fetches with
    | .ok dict =>
      (dict, { s with m_cache := dict, m_cached := true, fetches := s.fetches + 1 })
    | .error _ =>
      (s.m_cache, overseer_t.suicide source { s with fetches := s.fetches + 1 })

/-- The block `// Scheduling` of `overseer_t::schedule`: a scheduler whose key is not in the
table is started and inserted, and the idle timer, if active, is stopped. -/
def overseer_t.schedule_insert (s : overseer_t) (scheduler : scheduler_base_t) : overseer_t :=
  if (slave_find s.m_slaves scheduler.m_key).isNone then
    { s with
      starts := s.starts ++ [scheduler.m_key],
      m_slaves := slave_insert s.m_slaves scheduler.m_key scheduler.start,
      m_suicide := none }
  else s

/-- The block `// ACL` of `overseer_t::schedule`: the pair is searched in the range of the
entries of the token and inserted when it is not found there. -/
def overseer_t.subscribe (s : overseer_t) (token key : String) : overseer_t :=
  if ((s.m_subscriptions.filter (fun e => e.1 = token)).find?
      (fun e => e = (token, key))).isNone then
    { s with m_subscriptions := s.m_subscriptions ++ [(token, key)] }
  else s

/-- The block `// Persistance` of `overseer_t::schedule`. -/
def overseer_t.persist (env : Env) (source : source_t) (s : overseer_t) (message : Message)
    (key : String) : overseer_t :=
  let object_id := env.digest (key ++ message.token)
  let object := Record.mk source.uri message.args message.token
  if !(message.args.transient.getD false) then
    if !(s.m_storage.has object_id) then
      { s with m_storage := s.m_storage.put object_id object }
    else s
  else s

/-- The storage call that raises during one `schedule`, if any. -/
inductive StorageFault where
  | exists_raises
  | put_raises
  deriving DecidableEq, Repr

/-- The blocks `// Persistance` and `// Report to the core` of `overseer_t::schedule` over a
storage whose `exists` or `put` may raise. No handler encloses the two calls, so an
exception of the storage leaves the method at the call, before `respond`. The result is the
state and whether a storage call raised. -/
def overseer_t.persist_report (env : Env) (source : source_t) (fault : Option StorageFault)
    (s : overseer_t) (message : Message) (key : String) : overseer_t × Bool :=
  if !(message.args.transient.getD false) then
    if fault = some .exists_raises then (s, true)
    else if !(s.m_storage.has (env.digest (key ++ message.token))) then
      if fault = some .put_raises then (s, true)
      else ((s.persist env source message key).respond message.future [("key", key)], false)
    else (s.respond message.future [("key", key)], false)
  else (s.respond message.future [("key", key)], false)

/-- The end of the scope of the local `std::auto_ptr<SchedulerType> scheduler`, reached by
the return at the end of the method or by an exception of the storage: the pointer deletes
the scheduler it still owns. `m_slaves.insert(key, scheduler)` takes the scheduler from the
pointer, so the pointer owns one exactly when the key was in the table `s` of before the
call, and that scheduler was not started. The result is whether the destructor faults. -/
def overseer_t.scope_exit (s : overseer_t) (scheduler : scheduler_base_t) : Bool :=
  if (slave_find s.m_slaves scheduler.m_key).isNone then false
  else scheduler.destructor_faults

/-- How a call of `schedule` is left: `raised` says that an exception of the storage left
the body, `faulted` that a destructor call dereferenced the null `m_watcher`. The call
returns to the loop when neither holds. -/
structure Exit where
  raised : Bool
  faulted : Bool
  deriving DecidableEq, Repr

/-- Method `overseer_t::schedule<SchedulerType>`, over a storage whose calls may raise: the
state in which the call is left, and how it is left. When the construction faults, the
handler that would send the error reply is not reached. When the scheduler is built, the
blocks run in order and the local pointer is destroyed at the end (`scope_exit`). -/
def overseer_t.schedule_call (env : Env) (source : source_t) (type : SchedulerType)
    (fault : Option StorageFault) (s : overseer_t) (message : Message) : overseer_t × Exit :=
  match type.construct env source message.args with
  | .faults _ => (s, Exit.mk false true)
  | .throws what => (s.respond message.future [("error", what)], Exit.mk false false)
  | .ok scheduler =>
    ((overseer_t.persist_report env source fault
        ((s.schedule_insert scheduler).subscribe message.token scheduler.m_key)
        message scheduler.m_key).1,
      Exit.mk
        (overseer_t.persist_report env source fault
          ((s.schedule_insert scheduler).subscribe message.token scheduler.m_key)
          message scheduler.m_key).2
        (s.scope_exit scheduler))

/-- Method `overseer_t::schedule<SchedulerType>` over a storage whose calls return: the state
in which the call is left. How it is left is the second component of `schedule_call`. -/
def overseer_t.schedule (env : Env) (source : source_t) (type : SchedulerType)
    (s : overseer_t) (message : Message) : overseer_t :=
  (s.schedule_call env source type none message).1

/-- Method `overseer_t::once`. -/
def overseer_t.once (source : source_t) (s : overseer_t) (message : Message) : overseer_t :=
  let r := s.fetch source
  let s1 := r.2.respond message.future r.1
  if s1.m_suicide.isSome then { s1 with m_suicide := some 600 } else s1

/-- Method `overseer_t::stop`: the body is empty. -/
def overseer_t.stop (s : overseer_t) (_message : Message) : overseer_t :=
  s

/-- Method `overseer_t::terminate`. -/
def overseer_t.terminate (s : overseer_t) : overseer_t :=
  { s with m_slaves := [], m_suicide := none, m_io := false, m_cleanup := false }

/-- The control-socket handler `overseer_t::operator()(ev::io&, int)` on the messages pending
on the pipe: each is dispatched on its command, `terminate` leaves the loop. The storage
calls return, and the state is that of an overseer none of whose calls has faulted (see
`control_run` for the fault). -/
def overseer_t.control_event (env : Env) (source : source_t) :
    overseer_t → List Message → overseer_t
  | s, [] => s
  | s, message :: pending =>
    if message.command = "auto" then
      overseer_t.control_event env source
        (s.schedule env source .auto_scheduler_t message) pending
    else if message.command = "manual" then
      overseer_t.control_event env source
        (s.schedule env source .manual_scheduler_t message) pending
    else if message.command = "once" then
      overseer_t.control_event env source (s.once source message) pending
    else if message.command = "stop" then
      overseer_t.control_event env source (s.stop message) pending
    else if message.command = "terminate" then
      s.terminate
    else
      overseer_t.control_event env source s pending

/-- The control-socket handler on the messages pending on the pipe, up to the first call that
faults: the state reached and whether a call faulted, which ends the process with the
messages behind it unread. -/
def overseer_t.control_run (env : Env) (source : source_t) :
    overseer_t → List Message → overseer_t × Bool
  | s, [] => (s, false)
  | s, message :: pending =>
    if message.command = "auto" then
      if (s.schedule_call env source .auto_scheduler_t none message).2.faulted then
        ((s.schedule_call env source .auto_scheduler_t none message).1, true)
      else
        overseer_t.control_run env source
          (s.schedule_call env source .auto_scheduler_t none message).1 pending
    else if message.command = "manual" then
      if (s.schedule_call env source .manual_scheduler_t none message).2.faulted then
        ((s.schedule_call env source .manual_scheduler_t none message).1, true)
      else
        overseer_t.control_run env source
          (s.schedule_call env source .manual_scheduler_t none message).1 pending
    else if message.command = "once" then
      overseer_t.control_run env source (s.once source message) pending
    else if message.command = "stop" then
      overseer_t.control_run env source (s.stop message) pending
    else if message.command = "terminate" then
      (s.terminate, false)
    else
      overseer_t.control_run env source s pending

/-- The idle-timer handler `overseer_t::operator()(ev::timer&, int)`. -/
def overseer_t.timer_event (source : source_t) (s : overseer_t) : overseer_t :=
  s.suicide source


/-! ## Auxiliary definitions for the statements -/

/-- The scheduler class a control message asks for, by its command. -/
def Message.scheduler_type (message : Message) : Option SchedulerType :=
  if message.command = "auto" then some .auto_scheduler_t
  else if message.command = "manual" then some .manual_scheduler_t
  else none

/-- The key of the scheduler that `schedule<type>` constructs for a message, when the
constructor does not throw. -/
def schedule_key (env : Env) (source : source_t) (type : SchedulerType) (message : Message) :
    Option String :=
  match type.construct env source message.args with
  | .ok scheduler => some scheduler.m_key
  | .throws _ => none
  | .faults _ => none

/-- The key a control message yields: that of the scheduler its command constructs. -/
def Message.key (env : Env) (source : source_t) (message : Message) : Option String :=
  match message.scheduler_type with
  | some type => schedule_key env source type message
  | none => none

/-- The mappings that `k` successive calls of `overseer_t::fetch` return, in order, and the
state after them. -/
def overseer_t.fetch_times (source : source_t) : Nat → overseer_t → List dict_t × overseer_t
  | 0, s => ([], s)
  | k + 1, s =>
    ((s.fetch source).1 :: (overseer_t.fetch_times source k (s.fetch source).2).1,
      (overseer_t.fetch_times source k (s.fetch source).2).2)

/-! ## Sample values -/

/-- A sample environment: `CAP_MANUAL` is bit 0 and the digest is the identity. -/
def sample_env : Env :=
  { CAP_MANUAL := 1, digest := fun x => x }

/-- A sample plugin with hash `H` that advertises `MANUAL`, fetches one entry and asks to be
rescheduled at 20 on the first call and at 5 afterwards. -/
def sample_source : source_t :=
  { uri := "plugin://sample", hash := "H", capabilities := 1,
    fetch := fun _ => .ok [("k", "v")],
    reschedule := fun n => if n = 0 then 20 else 5 }

/-- The same plugin without any capability. -/
def plain_source : source_t :=
  { sample_source with capabilities := 0 }

/-- The request `auto` with interval 1000 and token `t1`. -/
def auto_t1 : Message :=
  { command := "auto", future := some { token := "t1" }, args := { interval := some 1000 } }

/-- The request `auto` with interval 1000 and token `t2`. -/
def auto_t2 : Message :=
  { command := "auto", future := some { token := "t2" }, args := { interval := some 1000 } }

/-- The request `manual` with token `t1`. -/
def manual_t1 : Message :=
  { command := "manual", future := some { token := "t1" } }

/-- A plugin whose first `fetch()` raises and whose later ones return one entry. -/
def flaky_source : source_t :=
  { sample_source with
    fetch := fun n => if n = 0 then .error "boom" else .ok [("k", "v")] }

/-- The request `once` with token `t1`. -/
def once_t1 : Message :=
  { command := "once", future := some { token := "t1" } }

/-- The request `stop` with token `t1`, as `engine_t::drop` sends it. -/
def stop_t1 : Message :=
  { command := "stop", future := some { token := "t1" } }

/-- The request `auto` with interval 0 and token `t1`. -/
def auto_zero : Message :=
  { command := "auto", future := some { token := "t1" }, args := { interval := some 0 } }

/-! ## Publishing (`scheduler_base_t::publish`) -/

/-- A message part sent on a socket: its bytes, written as a string, and whether
`ZMQ_SNDMORE` was given, that is whether another part of the same message follows. -/
structure Frame where
  data : String
  more : Bool
  deriving DecidableEq, Repr

/-- Method `scheduler_base_t::publish`, the handler of the periodic watcher: the frames sent
on the uplink of the scheduler, in order, and the overseer state afterwards. `pack` is the
serializer `msgpack::pack`. -/
def scheduler_base_t.publish (pack : dict_t → String) (source : source_t)
    (scheduler : scheduler_base_t) (s : overseer_t) : List Frame × overseer_t :=
  if (s.fetch source).1.length = 0 then
    ([], (s.fetch source).2)
  else
    ([Frame.mk scheduler.m_key true, Frame.mk (pack (s.fetch source).1) false],
      (s.fetch source).2)

/-! ## `schedule` over a storage whose calls may raise -/

/-- Method `overseer_t::schedule<SchedulerType>` over a storage whose `exists` or `put` may
raise. The only handler of the method encloses the construction of the scheduler, so an
exception of the storage leaves the method at the call. The result is the state in which
the method is left and whether an exception left it. -/
def overseer_t.schedule_raising (env : Env) (source : source_t) (type : SchedulerType)
    (fault : Option StorageFault) (s : overseer_t) (message : Message) : overseer_t × Bool :=
  ((s.schedule_call env source type fault message).1,
    (s.schedule_call env source type fault message).2.raised)

/-! ## Engine (`engine.cpp`) -/

/-- Class `engine_t::thread_t`, seen from the engine: the messages sent on its pipe to the
overseer of the thread, oldest first. -/
structure thread_t where
  m_pipe : List Message
  deriving DecidableEq, Repr

/-- What surrounds the engine: whether the n-th call of `m_registry.instantiate` and the n-th
construction of a `thread_t` (calls counted from 0) return or raise a `std::runtime_error`
with the given text. -/
structure Host where
  instantiate : Nat → Except String Unit
  create_thread : Nat → Except String Unit

/-- A call `future->fulfill(target, response)`: the future, the target and the response
object as the list of its members. -/
structure Fulfilment where
  future : Future
  target : String
  response : List (String × String)
  deriving DecidableEq, Repr

/-- Class `engine_t`. `m_threads` is the thread table (thread id to thread), `fulfilled` lists
the futures the engine has fulfilled itself, `instantiations` and `threads_created` count
the calls of `m_registry.instantiate` and the constructions of a `thread_t` attempted. -/
structure engine_t where
  m_target : String
  m_threads : List (String × thread_t)
  fulfilled : List Fulfilment
  instantiations : Nat
  threads_created : Nat
  deriving DecidableEq, Repr

/-- Constructor `engine_t::engine_t`. -/
def engine_t.init (target : String) : engine_t :=
  { m_target := target, m_threads := [], fulfilled := [],
    instantiations := 0, threads_created := 0 }

/-- Ids of the thread table. -/
def engine_t.ids (e : engine_t) : List String :=
  e.m_threads.map Prod.fst

/-- Call `m_threads.find(thread_id)`. -/
def thread_find (threads : List (String × thread_t)) (thread_id : String) : Option thread_t :=
  (threads.find? (fun t => t.1 = thread_id)).map Prod.snd

/-- Call `m_threads.insert(thread_id, thread)` of a map with unique keys. -/
def thread_insert (threads : List (String × thread_t)) (thread_id : String)
    (thread : thread_t) : List (String × thread_t) :=
  if (thread_find threads thread_id).isSome then threads else threads ++ [(thread_id, thread)]

/-- Call `it->second->send(message)` on the entry that `find(thread_id)` returns. -/
def thread_send : List (String × thread_t) → String → Message → List (String × thread_t)
  | [], _, _ => []
  | t :: rest, thread_id, message =>
    if t.1 = thread_id then (t.1, thread_t.mk (t.2.m_pipe ++ [message])) :: rest
    else t :: thread_send rest thread_id message

/-- Call `m_threads.erase(it)` on the entry that `find(thread_id)` returns. -/
def thread_erase : List (String × thread_t) → String → List (String × thread_t)
  | [], _ => []
  | t :: rest, thread_id => if t.1 = thread_id then rest else t :: thread_erase rest thread_id

/-- Method `engine_t::push`. -/
def engine_t.push (host : Host) (e : engine_t) (future : Future) (args : Args) : engine_t :=
  let message : Message :=
    { command := args.type.getD "simple", future := some future, args := args }
  if (thread_find e.m_threads "default").isSome then
    { e with m_threads := thread_send e.m_threads "default" message }
  else
    match host.instantiate e.instantiations with
    | .error what =>
      { e with instantiations := e.instantiations + 1,
               fulfilled := e.fulfilled ++ [Fulfilment.mk future e.m_target [("error", what)]] }
    | .ok _ =>
      match host.create_thread e.threads_created with
      | .error what =>
        { e with instantiations := e.instantiations + 1,
                 threads_created := e.threads_created + 1,
                 fulfilled :=
                   e.fulfilled ++ [Fulfilment.mk future e.m_target [("error", what)]] }
      | .ok _ =>
        { e with instantiations := e.instantiations + 1,
                 threads_created := e.threads_created + 1,
                 m_threads := thread_send
                   (thread_insert e.m_threads "default" (thread_t.mk [])) "default" message }

/-- Method `engine_t::drop`. -/
def engine_t.drop (e : engine_t) (future : Future) (args : Args) : engine_t :=
  let message : Message := { command := "stop", future := some future, args := args }
  if (thread_find e.m_threads "default").isNone then
    { e with fulfilled :=
        e.fulfilled ++ [Fulfilment.mk future e.m_target [("error", "not found")]] }
  else
    { e with m_threads := thread_send e.m_threads "default" message }

/-- Method `engine_t::kill`. -/
def engine_t.kill (e : engine_t) (thread_id : String) : engine_t :=
  if (thread_find e.m_threads thread_id).isNone then e
  else { e with m_threads := thread_erase e.m_threads thread_id }

/-- A call of one of the public operations of the engine. -/
inductive EngineCall where
  | push (future : Future) (args : Args)
  | drop (future : Future) (args : Args)
  | kill (thread_id : String)
  deriving DecidableEq, Repr

/-- The engine after one call. -/
def engine_t.call (host : Host) (e : engine_t) : EngineCall → engine_t
  | .push future args => e.push host future args
  | .drop future args => e.drop future args
  | .kill thread_id => e.kill thread_id

/-- The engine after a sequence of calls. -/
def engine_t.run (host : Host) (e : engine_t) (calls : List EngineCall) : engine_t :=
  calls.foldl (engine_t.call host) e

/-! ## More sample values -/

/-- The message `terminate`, as the destructor of `thread_t` sends it. -/
def terminate_message : Message :=
  { command := "terminate" }

/-- A serializer for the samples: the entries joined as `key=value;`. -/
def sample_pack (dict : dict_t) : String :=
  dict.foldl (fun acc e => acc ++ e.1 ++ "=" ++ e.2 ++ ";") ""

/-- A host on which every instantiation and every thread construction returns. -/
def sample_host : Host :=
  { instantiate := fun _ => .ok (), create_thread := fun _ => .ok () }

/-- A host whose registry raises on every instantiation. -/
def failing_host : Host :=
  { instantiate := fun _ => .error "no such plugin", create_thread := fun _ => .ok () }

/-- A host that is out of threads. -/
def exhausted_host : Host :=
  { instantiate := fun _ => .ok (),
    create_thread := fun _ => .error "system thread limit exceeded" }

/-- The future of token `t1`. -/
def future_t1 : Future :=
  { token := "t1" }

/-! ## The loop of the overseer -/

/-- What the event loop of the overseer can deliver: a batch of control messages readable on
the pipe, the expiry of the idle timer, the hook run before an iteration, and the expiry of
the periodic watcher of the scheduler with a given key. -/
inductive LoopEvent where
  | control (pending : List Message)
  | timer
  | prepare
  | trigger (key : String)
  deriving DecidableEq, Repr

/-- Delivery of a batch of control messages: the loop calls the handler of a watcher only
while the watcher is active. -/
def overseer_t.loop_control (env : Env) (source : source_t) (s : overseer_t)
    (pending : List Message) : overseer_t :=
  if s.m_io then s.control_event env source pending else s

/-- Expiry of the idle timer: an inactive timer does not expire; a timer started without a
repeat value, as `m_suicide.start(600.)` starts it, is stopped by the loop when it expires,
and then its handler is called. -/
def overseer_t.loop_timer (source : source_t) (s : overseer_t) : overseer_t :=
  if s.m_suicide.isSome then overseer_t.timer_event source { s with m_suicide := none } else s

/-- The hook before an iteration of the loop, called while the cleanup watcher is active. -/
def overseer_t.loop_prepare (s : overseer_t) : overseer_t :=
  if s.m_cleanup then s.prepare_event else s

/-- Expiry of the periodic watcher of the scheduler under a key: `publish` of that scheduler
is called when the table holds one whose watcher runs; the frames go to the uplink. -/
def overseer_t.loop_trigger (pack : dict_t → String) (source : source_t) (s : overseer_t)
    (key : String) : overseer_t :=
  match slave_find s.m_slaves key with
  | some scheduler => if scheduler.m_watcher then (scheduler.publish pack source s).2 else s
  | none => s

/-- The overseer after one event of its loop. -/
def overseer_t.loop_event (env : Env) (pack : dict_t → String) (source : source_t)
    (s : overseer_t) : LoopEvent → overseer_t
  | .control pending => s.loop_control env source pending
  | .timer => s.loop_timer source
  | .prepare => s.loop_prepare
  | .trigger key => s.loop_trigger pack source key

/-- The overseer after a sequence of events of its loop. -/
def overseer_t.loop (env : Env) (pack : dict_t → String) (source : source_t)
    (s : overseer_t) (events : List LoopEvent) : overseer_t :=
  events.foldl (overseer_t.loop_event env pack source) s

/-! ## Signature verification (`auth.cpp`) -/

/-- Class `auth_t`: the public keys loaded, by username; a key is named by a number. -/
structure auth_t where
  m_keys : List (String × Nat)
  deriving DecidableEq, Repr

/-- Method `auth_t::verify`. `check key message signature` is the `int` that
`EVP_VerifyFinal` returns after the message has been fed to the digest: 1 for a valid
signature, 0 for an invalid one, -1 for an error of the library. The source stores it in a
`bool`, which is true for every value other than 0. The result is the exception raised, if
any. -/
def auth_t.verify (check : Nat → String → String → Int) (auth : auth_t)
    (message signature username : String) : Except String Unit :=
  match (auth.m_keys.find? (fun e => e.1 = username)).map Prod.snd with
  | none => .error "unauthorized user"
  | some key =>
    let success : Bool := decide (check key message signature ≠ 0)
    if !success then .error "invalid signature" else .ok ()

/-! ## The port mapper (`context.cpp`) -/

/-- Type `port_mapping_t::port_t`, a 16-bit port number. -/
abbrev port_t := Nat

/-- Class `port_mapping_t`: the pinned ports by service name and the content of the queue of
shared ports. The queue type is declared outside the files at hand; it is taken to serve
the least port first. -/
structure port_mapping_t where
  m_pinned : List (String × port_t)
  m_shared : List port_t
  deriving DecidableEq, Repr

/-- Constructor `port_mapping_t::port_mapping_t` on the pinned ports and the shared range
`(min, max)` of the configuration. In `min == max == 0` the comparison `min == max` is
made first, and its result, 0 or 1, is compared with 0. -/
def port_mapping_t.init (pinned : List (String × port_t)) (shared : port_t × port_t) :
    port_mapping_t :=
  if (if shared.1 = shared.2 then 1 else 0) = 0 ∨ shared.2 ≤ shared.1 then
    { m_pinned := pinned, m_shared := List.replicate 65535 0 }
  else
    { m_pinned := pinned, m_shared := List.range' shared.1 (shared.2 - shared.1) }

/-- Call `m_shared.top()`: the least port of the queue. -/
def queue_top : List port_t → Option port_t
  | [] => none
  | p :: rest =>
    match queue_top rest with
    | none => some p
    | some q => some (if p ≤ q then p else q)

/-- Call `m_shared.pop()`: the queue without one copy of its top. -/
def queue_pop (queue : List port_t) : List port_t :=
  match queue_top queue with
  | none => queue
  | some p => queue.erase p

/-- Method `port_mapping_t::assign`: the port returned or the exception raised, and the
mapping afterwards. -/
def port_mapping_t.assign (m : port_mapping_t) (name : String) :
    Except String port_t × port_mapping_t :=
  match (m.m_pinned.find? (fun e => e.1 = name)).map Prod.snd with
  | some port => (.ok port, m)
  | none =>
    match queue_top m.m_shared with
    | none => (.error "no ports left for allocation", m)
    | some port => (.ok port, { m with m_shared := queue_pop m.m_shared })

/-- Method `port_mapping_t::retain`. -/
def port_mapping_t.retain (m : port_mapping_t) (name : String) (port : port_t) :
    port_mapping_t :=
  if (m.m_pinned.find? (fun e => e.1 = name)).isSome then m
  else { m with m_shared := port :: m.m_shared }

/-! ## The service list of the context (`context.cpp`) -/

/-- Class `actor_t`, seen from the context: the text of the exception that `run` raises, if
it raises (a `std::system_error` when the endpoint cannot be bound), and the ports of the
endpoints it is published on, empty until it runs. -/
structure actor_t where
  fails : Option String
  location : List port_t
  deriving DecidableEq, Repr

/-- Class `context_t`: the service list and the port mapper. -/
structure context_t where
  m_services : List (String × actor_t)
  m_port_mapping : port_mapping_t
  deriving DecidableEq, Repr

/-- A context with an empty service list. -/
def context_t.init (mapping : port_mapping_t) : context_t :=
  { m_services := [], m_port_mapping := mapping }

/-- Method `context_t::insert`: the exception raised, if any, and the context afterwards. A
port taken from the mapper stays taken when `run` raises. -/
def context_t.insert (c : context_t) (name : String) (service : actor_t) :
    Except String Unit × context_t :=
  if c.m_services.countP (fun e => name = e.1) ≠ 0 then
    (.error ("service '" ++ name ++ "' already exists"), c)
  else
    match c.m_port_mapping.assign name with
    | (.error what, mapping) => (.error what, { c with m_port_mapping := mapping })
    | (.ok port, mapping) =>
      match service.fails with
      | some what => (.error what, { c with m_port_mapping := mapping })
      | none =>
        (.ok (), context_t.mk (c.m_services ++ [(name, actor_t.mk none [port])]) mapping)

/-- Method `context_t::remove`: the service returned or the exception raised, and the context
afterwards. A service of the list has run, so that its location has a front. -/
def context_t.remove (c : context_t) (name : String) : Except String actor_t × context_t :=
  match c.m_services.find? (fun e => name = e.1) with
  | none => (.error ("service '" ++ name ++ "' doesn't exist"), c)
  | some entry =>
    match entry.2.location with
    | port :: _ =>
      (.ok entry.2, context_t.mk (c.m_services.eraseP (fun e => name = e.1))
        (c.m_port_mapping.retain name port))
    | [] =>
      (.ok entry.2, context_t.mk (c.m_services.eraseP (fun e => name = e.1)) c.m_port_mapping)

/-- A call of `insert` or `remove`. -/
inductive ContextCall where
  | insert (name : String) (service : actor_t)
  | remove (name : String)
  deriving DecidableEq, Repr

/-- The context after one call, whether it raised or not. -/
def context_t.call (c : context_t) : ContextCall → context_t
  | .insert name service => (c.insert name service).2
  | .remove name => (c.remove name).2

/-- The context after a sequence of calls. -/
def context_t.run (c : context_t) (calls : List ContextCall) : context_t :=
  calls.foldl context_t.call c

/-! ## The reader of the configuration file (`context.cpp`) -/

/-- Type `dynamic_t`, the value the reader builds. An object is a map from member names to
values; it is written as the list of its members, one per name, and no code observes the
order of that list. A `double` is passed through unchanged and is written as a rational. -/
inductive dynamic_t where
  | null
  | bool (v : Bool)
  | int (v : Int)
  | uint (v : Nat)
  | double (v : ℚ)
  | string (v : String)
  | array (items : List dynamic_t)
  | object (members : List (String × dynamic_t))

/-- The calls a SAX parser makes on its handler; member names arrive as `String`. -/
inductive SaxEvent where
  | Null
  | Bool (v : Bool)
  | Int (v : Int)
  | Uint (v : Nat)
  | Int64 (v : Int)
  | Uint64 (v : Nat)
  | Double (v : ℚ)
  | String (data : String)
  | StartObject
  | EndObject (size : Nat)
  | StartArray
  | EndArray (size : Nat)

/-- Statement `object[key] = value` on a map: the value of a member that is there is
replaced, a member that is not there is added. -/
def object_assign (object : List (String × dynamic_t)) (key : String) (value : dynamic_t) :
    List (String × dynamic_t) :=
  if object.any (fun e => e.1 = key) then
    object.map (fun e => if e.1 = key then (key, value) else e)
  else (key, value) :: object

/-- The loop of `EndObject`: `size` times a value and then a key are popped and the member is
assigned. The result is the object and the rest of the stack; there is none when the stack
runs out or a key is not a string. -/
def end_object_loop :
    Nat → List (String × dynamic_t) → List dynamic_t →
      Option (List (String × dynamic_t) × List dynamic_t)
  | 0, object, stack => some (object, stack)
  | n + 1, object, value :: dynamic_t.string key :: stack =>
    end_object_loop n (object_assign object key value) stack
  | _ + 1, _, _ => none

/-- The loop of `EndArray`: the elements `array[size - 1]` down to `array[0]` are taken from
the top of the stack. The accumulator holds the elements filled so far, `array[i]` and
upwards. -/
def end_array_loop :
    Nat → List dynamic_t → List dynamic_t → Option (List dynamic_t × List dynamic_t)
  | 0, array, stack => some (array, stack)
  | n + 1, array, top :: stack => end_array_loop n (top :: array) stack
  | _ + 1, _, [] => none

/-- Struct `dynamic_reader_t`: the stack, top first. -/
structure dynamic_reader_t where
  m_stack : List dynamic_t

/-- The handler methods of `dynamic_reader_t`, by event; there is no result when `top()` is
called on an empty stack or `as_string()` on a value that is not a string. -/
def dynamic_reader_t.handle (r : dynamic_reader_t) : SaxEvent → Option dynamic_reader_t
  | .Null => some ⟨dynamic_t.null :: r.m_stack⟩
  | .Bool v => some ⟨dynamic_t.bool v :: r.m_stack⟩
  | .Int v => some ⟨dynamic_t.int v :: r.m_stack⟩
  | .Uint v => some ⟨dynamic_t.uint v :: r.m_stack⟩
  | .Int64 v => some ⟨dynamic_t.int v :: r.m_stack⟩
  | .Uint64 v => some ⟨dynamic_t.uint v :: r.m_stack⟩
  | .Double v => some ⟨dynamic_t.double v :: r.m_stack⟩
  | .String data => some ⟨dynamic_t.string data :: r.m_stack⟩
  | .StartObject => some r
  | .EndObject size =>
    match end_object_loop size [] r.m_stack with
    | some (object, stack) => some ⟨dynamic_t.object object :: stack⟩
    | none => none
  | .StartArray => some r
  | .EndArray size =>
    match end_array_loop size [] r.m_stack with
    | some (array, stack) => some ⟨dynamic_t.array array :: stack⟩
    | none => none

/-- Method `dynamic_reader_t::Result`. -/
def dynamic_reader_t.Result (r : dynamic_reader_t) : Option dynamic_t :=
  r.m_stack.head?

/-- The reader after a stream of events. -/
def dynamic_reader_t.replay : List SaxEvent → dynamic_reader_t → Option dynamic_reader_t
  | [], r => some r
  | event :: events, r =>
    match r.handle event with
    | some next => dynamic_reader_t.replay events next
    | none => none

mutual
/-- The SAX event stream of a value: a scalar is one event (an integer that fits 32 bits
comes as `Int` or `Uint`, a wider one as `Int64` or `Uint64`), an array is `StartArray`,
the streams of its elements in order, `EndArray` with their number; an object is
`StartObject`, for each member its name as a string and the stream of its value,
`EndObject` with the number of members. -/
def dynamic_t.events : dynamic_t → List SaxEvent
  | .null => [.Null]
  | .bool v => [.Bool v]
  | .int v => if -2 ^ 31 ≤ v ∧ v < 2 ^ 31 then [.Int v] else [.Int64 v]
  | .uint v => if v < 2 ^ 32 then [.Uint v] else [.Uint64 v]
  | .double v => [.Double v]
  | .string v => [.String v]
  | .array items => .StartArray :: (dynamic_t.events_items items ++ [.EndArray items.length])
  | .object members =>
    .StartObject :: (dynamic_t.events_members members ++ [.EndObject members.length])
/-- The streams of the elements of an array, in order. -/
def dynamic_t.events_items : List dynamic_t → List SaxEvent
  | [] => []
  | v :: rest => v.events ++ dynamic_t.events_items rest
/-- The streams of the members of an object, in order. -/
def dynamic_t.events_members : List (String × dynamic_t) → List SaxEvent
  | [] => []
  | (key, v) :: rest => .String key :: (v.events ++ dynamic_t.events_members rest)
end

mutual
/-- Whether the member names of every object inside a value are pairwise distinct. -/
def dynamic_t.distinct_keys : dynamic_t → Bool
  | .array items => dynamic_t.distinct_keys_items items
  | .object members =>
    decide (members.map Prod.fst).Nodup && dynamic_t.distinct_keys_members members
  | _ => true
/-- The same for every element of an array. -/
def dynamic_t.distinct_keys_items : List dynamic_t → Bool
  | [] => true
  | v :: rest => v.distinct_keys && dynamic_t.distinct_keys_items rest
/-- The same for the value of every member of an object. -/
def dynamic_t.distinct_keys_members : List (String × dynamic_t) → Bool
  | [] => true
  | (_, v) :: rest => v.distinct_keys && dynamic_t.distinct_keys_members rest
end

/-- The stack that the members of an object leave, given in reverse: the value of the last
member on top, its name below, and so on. -/
def member_stack : List (String × dynamic_t) → List dynamic_t
  | [] => []
  | (key, v) :: rest => v :: dynamic_t.string key :: member_stack rest

/-- A sample configuration: an object with a version, a list of paths and an empty
object. -/
def sample_config : dynamic_t :=
  .object [("version", .uint 3), ("paths", .array [.string "a", .null, .int (-1)]),
    ("network", .object [])]

/-- The user `alice` with the key 7. -/
def sample_auth : auth_t :=
  { m_keys := [("alice", 7)] }

/-! ## Lemmas on the scheduler table -/

theorem slave_find_isNone_iff (slaves : List (String × scheduler_base_t)) (key : String) :
    (slave_find slaves key).isNone = true ↔ key ∉ slaves.map Prod.fst := by
  induction slaves with
  | nil => simp [slave_find]
  | cons e rest ih =>
    by_cases h : e.1 = key
    · simp [slave_find, List.find?, h]
    · have hne : ¬ key = e.1 := fun h2 => h h2.symm
      simpa [slave_find, List.find?, h, hne] using ih

/-! ## The fields of the state after each block of `schedule` -/

section fields

variable (env : Env) (source : source_t) (s : overseer_t)

@[simp] theorem respond_m_slaves (f : Option Future) (r : List (String × String)) :
    (s.respond f r).m_slaves = s.m_slaves := rfl
@[simp] theorem respond_keys (f : Option Future) (r : List (String × String)) :
    (s.respond f r).keys = s.keys := rfl
@[simp] theorem respond_m_subscriptions (f : Option Future) (r : List (String × String)) :
    (s.respond f r).m_subscriptions = s.m_subscriptions := rfl
@[simp] theorem respond_m_storage (f : Option Future) (r : List (String × String)) :
    (s.respond f r).m_storage = s.m_storage := rfl
@[simp] theorem respond_m_suicide (f : Option Future) (r : List (String × String)) :
    (s.respond f r).m_suicide = s.m_suicide := rfl
@[simp] theorem respond_starts (f : Option Future) (r : List (String × String)) :
    (s.respond f r).starts = s.starts := rfl
@[simp] theorem respond_m_futures (f : Option Future) (r : List (String × String)) :
    (s.respond f r).m_futures = s.m_futures ++ [Reply.mk f r] := rfl

@[simp] theorem persist_m_slaves (message : Message) (key : String) :
    (s.persist env source message key).m_slaves = s.m_slaves := by
  simp only [overseer_t.persist]; split_ifs <;> rfl
@[simp] theorem persist_keys (message : Message) (key : String) :
    (s.persist env source message key).keys = s.keys := by
  simp [overseer_t.keys]
@[simp] theorem persist_m_subscriptions (message : Message) (key : String) :
    (s.persist env source message key).m_subscriptions = s.m_subscriptions := by
  simp only [overseer_t.persist]; split_ifs <;> rfl
@[simp] theorem persist_m_suicide (message : Message) (key : String) :
    (s.persist env source message key).m_suicide = s.m_suicide := by
  simp only [overseer_t.persist]; split_ifs <;> rfl
@[simp] theorem persist_starts (message : Message) (key : String) :
    (s.persist env source message key).starts = s.starts := by
  simp only [overseer_t.persist]; split_ifs <;> rfl
@[simp] theorem persist_m_futures (message : Message) (key : String) :
    (s.persist env source message key).m_futures = s.m_futures := by
  simp only [overseer_t.persist]; split_ifs <;> rfl

@[simp] theorem subscribe_m_slaves (token key : String) :
    (s.subscribe token key).m_slaves = s.m_slaves := by
  unfold overseer_t.subscribe; split <;> rfl
@[simp] theorem subscribe_keys (token key : String) :
    (s.subscribe token key).keys = s.keys := by
  simp [overseer_t.keys]
@[simp] theorem subscribe_m_storage (token key : String) :
    (s.subscribe token key).m_storage = s.m_storage := by
  unfold overseer_t.subscribe; split <;> rfl
@[simp] theorem subscribe_m_suicide (token key : String) :
    (s.subscribe token key).m_suicide = s.m_suicide := by
  unfold overseer_t.subscribe; split <;> rfl
@[simp] theorem subscribe_starts (token key : String) :
    (s.subscribe token key).starts = s.starts := by
  unfold overseer_t.subscribe; split <;> rfl
@[simp] theorem subscribe_m_futures (token key : String) :
    (s.subscribe token key).m_futures = s.m_futures := by
  unfold overseer_t.subscribe; split <;> rfl

@[simp] theorem schedule_insert_m_subscriptions (scheduler : scheduler_base_t) :
    (s.schedule_insert scheduler).m_subscriptions = s.m_subscriptions := by
  unfold overseer_t.schedule_insert; split <;> rfl
@[simp] theorem schedule_insert_m_storage (scheduler : scheduler_base_t) :
    (s.schedule_insert scheduler).m_storage = s.m_storage := by
  unfold overseer_t.schedule_insert; split <;> rfl
@[simp] theorem schedule_insert_m_futures (scheduler : scheduler_base_t) :
    (s.schedule_insert scheduler).m_futures = s.m_futures := by
  unfold overseer_t.schedule_insert; split <;> rfl

theorem schedule_insert_present (scheduler : scheduler_base_t)
    (h : scheduler.m_key ∈ s.keys) : s.schedule_insert scheduler = s := by
  have hn : ¬ (slave_find s.m_slaves scheduler.m_key).isNone = true := by
    rw [slave_find_isNone_iff]; simpa [overseer_t.keys] using h
  simp [overseer_t.schedule_insert, hn]

theorem schedule_insert_absent (scheduler : scheduler_base_t)
    (h : scheduler.m_key ∉ s.keys) :
    s.schedule_insert scheduler =
      { s with starts := s.starts ++ [scheduler.m_key],
               m_slaves := s.m_slaves ++ [(scheduler.m_key, scheduler.start)],
               m_suicide := none } := by
  have hn : (slave_find s.m_slaves scheduler.m_key).isNone = true := by
    rw [slave_find_isNone_iff]; simpa [overseer_t.keys] using h
  have hs : (slave_find s.m_slaves scheduler.m_key).isSome = false := by
    cases hfind : slave_find s.m_slaves scheduler.m_key <;> simp_all
  simp [overseer_t.schedule_insert, hn, slave_insert, hs]

theorem schedule_ok (type : SchedulerType) (message : Message) (scheduler : scheduler_base_t)
    (h : type.construct env source message.args = .ok scheduler) :
    s.schedule env source type message =
      (((s.schedule_insert scheduler).subscribe message.token scheduler.m_key).persist
        env source message scheduler.m_key).respond message.future
        [("key", scheduler.m_key)] := by
  simp only [overseer_t.schedule, overseer_t.schedule_call, h, overseer_t.persist_report,
    overseer_t.persist]
  split_ifs <;> simp_all

theorem schedule_throws (type : SchedulerType) (message : Message) (what : String)
    (h : type.construct env source message.args = .throws what) :
    s.schedule env source type message = s.respond message.future [("error", what)] := by
  simp [overseer_t.schedule, overseer_t.schedule_call, h]

theorem schedule_faults (type : SchedulerType) (message : Message) (what : String)
    (h : type.construct env source message.args = .faults what) :
    s.schedule env source type message = s := by
  simp [overseer_t.schedule, overseer_t.schedule_call, h]

theorem schedule_key_eq_some (type : SchedulerType) (message : Message) (key : String) :
    schedule_key env source type message = some key ↔
      ∃ scheduler, type.construct env source message.args = .ok scheduler
        ∧ scheduler.m_key = key := by
  unfold schedule_key
  cases h : type.construct env source message.args <;> simp

theorem schedule_m_slaves (type : SchedulerType) (message : Message)
    (scheduler : scheduler_base_t)
    (h : type.construct env source message.args = .ok scheduler) :
    (s.schedule env source type message).m_slaves =
      if scheduler.m_key ∈ s.keys then s.m_slaves
      else s.m_slaves ++ [(scheduler.m_key, scheduler.start)] := by
  rw [schedule_ok env source s type message scheduler h]
  by_cases hk : scheduler.m_key ∈ s.keys
  · simp [schedule_insert_present s scheduler hk, hk]
  · simp [schedule_insert_absent s scheduler hk, hk]

theorem schedule_starts (type : SchedulerType) (message : Message)
    (scheduler : scheduler_base_t)
    (h : type.construct env source message.args = .ok scheduler) :
    (s.schedule env source type message).starts =
      if scheduler.m_key ∈ s.keys then s.starts else s.starts ++ [scheduler.m_key] := by
  rw [schedule_ok env source s type message scheduler h]
  by_cases hk : scheduler.m_key ∈ s.keys
  · simp [schedule_insert_present s scheduler hk, hk]
  · simp [schedule_insert_absent s scheduler hk, hk]

/-- One `schedule` keeps the table free of repeated keys and keeps, for every key, as many
`start()` calls as table entries. -/
theorem schedule_table_inv (type : SchedulerType) (message : Message)
    (hn : s.keys.Nodup) (hc : ∀ key, s.starts.count key = s.keys.count key) :
    (s.schedule env source type message).keys.Nodup ∧
      ∀ key, (s.schedule env source type message).starts.count key
        = (s.schedule env source type message).keys.count key := by
  cases h : type.construct env source message.args with
  | throws what =>
    rw [schedule_throws env source s type message what h]
    exact ⟨hn, hc⟩
  | faults what =>
    rw [schedule_faults env source s type message what h]
    exact ⟨hn, hc⟩
  | ok scheduler =>
    have hs := schedule_m_slaves env source s type message scheduler h
    have ht := schedule_starts env source s type message scheduler h
    by_cases hk : scheduler.m_key ∈ s.keys
    · simp only [hk, if_true] at hs ht
      simp only [overseer_t.keys, hs, ht]
      exact ⟨hn, hc⟩
    · simp only [hk, if_false] at hs ht
      simp only [overseer_t.keys, hs, ht, List.map_append, List.map_cons, List.map_nil]
      refine ⟨?_, ?_⟩
      · rw [List.nodup_append]
        refine ⟨hn, List.nodup_singleton _, ?_⟩
        intro a ha hb
        simp only [List.mem_singleton] at hb
        subst hb
        exact hk ha
      · intro key
        have := hc key
        simp only [overseer_t.keys] at this
        simp [List.count_append, this]

/-- A key stays in the table through `schedule`, and the key of the scheduler constructed is
in the table afterwards. -/
theorem schedule_keys_mem (type : SchedulerType) (message : Message) (key : String)
    (hk : key ∈ s.keys ∨ schedule_key env source type message = some key) :
    key ∈ (s.schedule env source type message).keys := by
  cases h : type.construct env source message.args with
  | throws what =>
    rw [schedule_throws env source s type message what h]
    rcases hk with hk | hk
    · exact hk
    · simp [schedule_key, h] at hk
  | faults what =>
    rw [schedule_faults env source s type message what h]
    rcases hk with hk | hk
    · exact hk
    · simp [schedule_key, h] at hk
  | ok scheduler =>
    have hs := schedule_m_slaves env source s type message scheduler h
    have hkey : schedule_key env source type message = some scheduler.m_key := by
      simp [schedule_key, h]
    by_cases hm : scheduler.m_key ∈ s.keys
    · simp only [hm, if_true] at hs
      simp only [overseer_t.keys, hs]
      rcases hk with hk | hk
      · exact hk
      · rw [hkey] at hk
        cases hk
        exact hm
    · simp only [hm, if_false] at hs
      simp only [overseer_t.keys, hs, List.map_append, List.map_cons, List.map_nil,
        List.mem_append, List.mem_singleton]
      rcases hk with hk | hk
      · exact Or.inl hk
      · rw [hkey] at hk
        cases hk
        exact Or.inr rfl

end fields

/-! ## The control loop on schedule messages -/

theorem control_event_schedule (env : Env) (source : source_t) (s : overseer_t)
    (message : Message) (pending : List Message) (type : SchedulerType)
    (h : message.scheduler_type = some type) :
    s.control_event env source (message :: pending) =
      (s.schedule env source type message).control_event env source pending := by
  unfold Message.scheduler_type at h
  by_cases h1 : message.command = "auto"
  · rw [if_pos h1] at h
    cases h
    simp [overseer_t.control_event, h1]
  · by_cases h2 : message.command = "manual"
    · rw [if_neg h1, if_pos h2] at h
      cases h
      simp [overseer_t.control_event, h2]
    · rw [if_neg h1, if_neg h2] at h
      cases h

theorem scheduler_type_isSome (message : Message)
    (h : message.command = "auto" ∨ message.command = "manual") :
    ∃ type, message.scheduler_type = some type := by
  unfold Message.scheduler_type
  by_cases h1 : message.command = "auto"
  · exact ⟨.auto_scheduler_t, if_pos h1⟩
  · rcases h with h | h
    · exact absurd h h1
    · exact ⟨.manual_scheduler_t, by rw [if_neg h1, if_pos h]⟩

/-- A batch of schedule messages keeps the table invariant, keeps every key of the table and
leaves the key of every message that yields one in the table. -/
theorem control_event_table_inv (env : Env) (source : source_t) (pending : List Message)
    (hp : ∀ m ∈ pending, m.command = "auto" ∨ m.command = "manual") :
    ∀ s : overseer_t, s.keys.Nodup → (∀ key, s.starts.count key = s.keys.count key) →
      (s.control_event env source pending).keys.Nodup ∧
      (∀ key, (s.control_event env source pending).starts.count key
        = (s.control_event env source pending).keys.count key) ∧
      (∀ key, (key ∈ s.keys ∨ ∃ m ∈ pending, m.key env source = some key) →
        key ∈ (s.control_event env source pending).keys) := by
  induction pending with
  | nil =>
    intro s hn hc
    refine ⟨hn, hc, ?_⟩
    intro key hk
    rcases hk with hk | ⟨m, hm, _⟩
    · exact hk
    · cases hm
  | cons message rest ih =>
    intro s hn hc
    obtain ⟨type, ht⟩ := scheduler_type_isSome message (hp message (List.mem_cons_self _ _))
    rw [control_event_schedule env source s message rest type ht]
    have hstep := schedule_table_inv env source s type message hn hc
    have hrest := ih (fun m hm => hp m (List.mem_cons_of_mem _ hm))
      (s.schedule env source type message) hstep.1 hstep.2
    refine ⟨hrest.1, hrest.2.1, ?_⟩
    intro key hk
    apply hrest.2.2
    rcases hk with hk | ⟨m, hm, hkey⟩
    · exact Or.inl (schedule_keys_mem env source s type message key (Or.inl hk))
    · rcases List.mem_cons.mp hm with hm | hm
      · subst hm
        refine Or.inl (schedule_keys_mem env source s type m key (Or.inr ?_))
        simpa [Message.key, ht] using hkey
      · exact Or.inr ⟨m, hm, hkey⟩

/-! ## How a call of `schedule` is left -/

theorem slave_find_isNone_false_iff (s : overseer_t) (key : String) :
    ¬ (slave_find s.m_slaves key).isNone = true ↔ key ∈ s.keys := by
  rw [slave_find_isNone_iff]; simp [overseer_t.keys]

/-- The destructor call at the end of the scope faults exactly when the key was in the table
before the call and the scheduler was never started. -/
theorem scope_exit_iff (s : overseer_t) (scheduler : scheduler_base_t) :
    s.scope_exit scheduler = true ↔
      scheduler.m_key ∈ s.keys ∧ scheduler.m_watcher = false := by
  unfold overseer_t.scope_exit scheduler_base_t.destructor_faults
  by_cases hk : scheduler.m_key ∈ s.keys
  · have hn := (slave_find_isNone_false_iff s scheduler.m_key).mpr hk
    rw [if_neg hn]; simp [hk]
  · have hn : (slave_find s.m_slaves scheduler.m_key).isNone = true := by
      by_contra h
      exact hk ((slave_find_isNone_false_iff s scheduler.m_key).mp h)
    rw [if_pos hn]; simp [hk]

/-- A constructor hands out a scheduler that was not started. -/
theorem construct_unstarted (env : Env) (source : source_t) (type : SchedulerType)
    (args : Args) (scheduler : scheduler_base_t)
    (h : type.construct env source args = .ok scheduler) : scheduler.m_watcher = false := by
  cases type with
  | auto_scheduler_t =>
    simp only [SchedulerType.construct, auto_scheduler_t, Construction.unwind,
      scheduler_base_t.construct, scheduler_base_t.destructor_faults] at h
    split_ifs at h
    simp only [Construction.ok.injEq] at h
    rw [← h]
  | manual_scheduler_t =>
    simp only [SchedulerType.construct, manual_scheduler_t, Construction.unwind,
      scheduler_base_t.construct, scheduler_base_t.destructor_faults] at h
    split_ifs at h
    simp only [Construction.ok.injEq] at h
    rw [← h]

/-- No exception of a constructor gets to the handler of `schedule`: the destructor of the
base faults first. -/
theorem construct_never_throws (env : Env) (source : source_t) (type : SchedulerType)
    (args : Args) (what : String) : type.construct env source args ≠ .throws what := by
  cases type with
  | auto_scheduler_t =>
    simp only [SchedulerType.construct, auto_scheduler_t, Construction.unwind,
      scheduler_base_t.construct, scheduler_base_t.destructor_faults]
    split_ifs <;> simp_all
  | manual_scheduler_t =>
    simp only [SchedulerType.construct, manual_scheduler_t, Construction.unwind,
      scheduler_base_t.construct, scheduler_base_t.destructor_faults]
    split_ifs <;> simp_all

theorem persist_report_fst_none (env : Env) (source : source_t) (s : overseer_t)
    (message : Message) (key : String) :
    overseer_t.persist_report env source none s message key =
      ((s.persist env source message key).respond message.future [("key", key)], false) := by
  simp only [overseer_t.persist_report, overseer_t.persist]
  split_ifs <;> simp_all

theorem schedule_call_ok (env : Env) (source : source_t) (s : overseer_t)
    (type : SchedulerType) (message : Message) (scheduler : scheduler_base_t)
    (h : type.construct env source message.args = .ok scheduler) :
    s.schedule_call env source type none message =
      (s.schedule env source type message, Exit.mk false (s.scope_exit scheduler)) := by
  simp [overseer_t.schedule, overseer_t.schedule_call, h, persist_report_fst_none]

theorem schedule_call_faults (env : Env) (source : source_t) (s : overseer_t)
    (type : SchedulerType) (fault : Option StorageFault) (message : Message) (what : String)
    (h : type.construct env source message.args = .faults what) :
    s.schedule_call env source type fault message = (s, Exit.mk false true) := by
  simp [overseer_t.schedule_call, h]

/-- A call of `schedule` over a storage whose calls return is left by the fault exactly when
no scheduler is constructed or the key of the scheduler is in the table already; it returns
exactly when the scheduler is constructed under a key that is new to the table. -/
theorem schedule_call_faulted_iff (env : Env) (source : source_t) (s : overseer_t)
    (type : SchedulerType) (message : Message) :
    (s.schedule_call env source type none message).2.faulted = true ↔
      (schedule_key env source type message = none ∨
        ∃ key, schedule_key env source type message = some key ∧ key ∈ s.keys) := by
  cases h : type.construct env source message.args with
  | throws what => exact absurd h (construct_never_throws env source type _ what)
  | faults what =>
    rw [schedule_call_faults env source s type none message what h]
    simp [schedule_key, h]
  | ok scheduler =>
    rw [schedule_call_ok env source s type message scheduler h]
    simp [schedule_key, h, scope_exit_iff, construct_unstarted env source type _ scheduler h]

/-- A batch in which no call faults is processed as `control_event` says. -/
theorem control_run_returns (env : Env) (source : source_t) (pending : List Message) :
    ∀ s : overseer_t, (s.control_run env source pending).2 = false →
      (s.control_run env source pending).1 = s.control_event env source pending := by
  induction pending with
  | nil => intro s _; rfl
  | cons message rest ih =>
    intro s h
    unfold overseer_t.control_run at h ⊢
    unfold overseer_t.control_event
    split_ifs at h ⊢ <;> first | exact ih _ h | rfl

/-! ## C1 -/

/-- C1, the code at the failing input: two `auto` requests with interval 1000, tokens `t1`
and `t2`, on a fresh overseer. The first is left by return with one scheduler under
`auto:H@1`, started once. The second yields the same key: it starts and inserts nothing,
and the scheduler it constructed, never started, is destroyed at the end of `schedule`,
where the destructor dereferences the null `m_watcher`. The call is left by that fault,
not by return, and the batch ends there. -/
theorem second_request_for_key_faults :
    (overseer_t.init ⟨[]⟩).schedule_call sample_env sample_source .auto_scheduler_t none auto_t1
      = ((overseer_t.init ⟨[]⟩).schedule sample_env sample_source .auto_scheduler_t auto_t1,
          Exit.mk false false) ∧
    ((overseer_t.init ⟨[]⟩).schedule sample_env sample_source .auto_scheduler_t
        auto_t1).keys = ["auto:H@1"] ∧
    schedule_key sample_env sample_source .auto_scheduler_t auto_t2 = some "auto:H@1" ∧
    (((overseer_t.init ⟨[]⟩).schedule sample_env sample_source
        .auto_scheduler_t auto_t1).schedule_call sample_env sample_source
        .auto_scheduler_t none auto_t2).2 = Exit.mk false true ∧
    (((overseer_t.init ⟨[]⟩).schedule sample_env sample_source
        .auto_scheduler_t auto_t1).schedule_call sample_env sample_source
        .auto_scheduler_t none auto_t2).1.starts = ["auto:H@1"] ∧
    ((overseer_t.init ⟨[]⟩).control_run sample_env sample_source [auto_t1, auto_t2]).2
      = true := by
  decide

/-! ## C2 -/

theorem subscription_search_isNone_iff (subscriptions : List (String × String))
    (token key : String) :
    ((subscriptions.filter (fun e => e.1 = token)).find?
      (fun e => e = (token, key))).isNone = true ↔ (token, key) ∉ subscriptions := by
  rw [Option.isNone_iff_eq_none, List.find?_eq_none]
  constructor
  · intro h hmem
    have := h (token, key) (by simp [List.mem_filter, hmem])
    simp at this
  · intro h x hx
    have hx1 := (List.mem_filter.mp hx).1
    intro heq
    simp only [decide_eq_true_eq] at heq
    subst heq
    exact h hx1

theorem subscribe_m_subscriptions (s : overseer_t) (token key : String) :
    (s.subscribe token key).m_subscriptions =
      if (token, key) ∈ s.m_subscriptions then s.m_subscriptions
      else s.m_subscriptions ++ [(token, key)] := by
  have h := subscription_search_isNone_iff s.m_subscriptions token key
  unfold overseer_t.subscribe
  by_cases hm : (token, key) ∈ s.m_subscriptions
  · have hn : ¬ ((s.m_subscriptions.filter (fun e => e.1 = token)).find?
        (fun e => e = (token, key))).isNone = true := by rw [h]; exact fun h2 => h2 hm
    rw [if_neg hn, if_pos hm]
  · rw [if_pos (h.mpr hm), if_neg hm]

theorem schedule_m_subscriptions (env : Env) (source : source_t) (s : overseer_t)
    (type : SchedulerType) (message : Message) (scheduler : scheduler_base_t)
    (h : type.construct env source message.args = .ok scheduler) :
    (s.schedule env source type message).m_subscriptions =
      if (message.token, scheduler.m_key) ∈ s.m_subscriptions then s.m_subscriptions
      else s.m_subscriptions ++ [(message.token, scheduler.m_key)] := by
  rw [schedule_ok env source s type message scheduler h]
  simp [subscribe_m_subscriptions]

theorem schedule_subscriptions_nodup (env : Env) (source : source_t) (s : overseer_t)
    (type : SchedulerType) (message : Message) (hn : s.m_subscriptions.Nodup) :
    (s.schedule env source type message).m_subscriptions.Nodup := by
  cases h : type.construct env source message.args with
  | throws what =>
    rw [schedule_throws env source s type message what h]
    exact hn
  | faults what =>
    rw [schedule_faults env source s type message what h]
    exact hn
  | ok scheduler =>
    rw [schedule_m_subscriptions env source s type message scheduler h]
    by_cases hm : (message.token, scheduler.m_key) ∈ s.m_subscriptions
    · rw [if_pos hm]; exact hn
    · rw [if_neg hm, List.nodup_append]
      refine ⟨hn, List.nodup_singleton _, ?_⟩
      intro a ha hb
      simp only [List.mem_singleton] at hb
      subst hb
      exact hm ha

theorem fetch_m_subscriptions (source : source_t) (s : overseer_t) :
    (s.fetch source).2.m_subscriptions = s.m_subscriptions := by
  unfold overseer_t.fetch
  split
  · rfl
  · split <;> rfl

theorem once_m_subscriptions (source : source_t) (s : overseer_t) (message : Message) :
    (s.once source message).m_subscriptions = s.m_subscriptions := by
  unfold overseer_t.once
  simp only []
  split <;> simp [fetch_m_subscriptions]

/-- Every batch of control messages, whatever their commands, keeps the subscriptions free
of repeated pairs. -/
theorem control_event_subscriptions_nodup (env : Env) (source : source_t)
    (pending : List Message) :
    ∀ s : overseer_t, s.m_subscriptions.Nodup →
      (s.control_event env source pending).m_subscriptions.Nodup := by
  induction pending with
  | nil => intro s hn; exact hn
  | cons message rest ih =>
    intro s hn
    unfold overseer_t.control_event
    split_ifs
    · exact ih _ (schedule_subscriptions_nodup env source s _ message hn)
    · exact ih _ (schedule_subscriptions_nodup env source s _ message hn)
    · exact ih _ (by rw [once_m_subscriptions]; exact hn)
    · exact ih _ hn
    · exact hn
    · exact ih _ hn

/-- C2, the code at the failing input: the `auto` request with interval 1000 and token `t1`
twice on a fresh overseer. The first call adds the pair (`t1`, `auto:H@1`) and returns. The
second call finds the pair, leaves the multimap as it is and sends the reply with the key;
then the scheduler it constructed, never started, is destroyed at the end of `schedule` and
the destructor dereferences the null `m_watcher`: the call is left by the fault. -/
theorem repeated_pair_faults :
    ((overseer_t.init ⟨[]⟩).schedule_call sample_env sample_source .auto_scheduler_t none
        auto_t1).2 = Exit.mk false false ∧
    ((overseer_t.init ⟨[]⟩).schedule sample_env sample_source .auto_scheduler_t
        auto_t1).m_subscriptions = [("t1", "auto:H@1")] ∧
    (((overseer_t.init ⟨[]⟩).schedule sample_env sample_source
        .auto_scheduler_t auto_t1).schedule_call sample_env sample_source
        .auto_scheduler_t none auto_t1).1.m_subscriptions = [("t1", "auto:H@1")] ∧
    (((overseer_t.init ⟨[]⟩).schedule sample_env sample_source
        .auto_scheduler_t auto_t1).schedule_call sample_env sample_source
        .auto_scheduler_t none auto_t1).1.m_futures =
      [Reply.mk (some (Future.mk "t1")) [("key", "auto:H@1")],
       Reply.mk (some (Future.mk "t1")) [("key", "auto:H@1")]] ∧
    (((overseer_t.init ⟨[]⟩).schedule sample_env sample_source
        .auto_scheduler_t auto_t1).schedule_call sample_env sample_source
        .auto_scheduler_t none auto_t1).2 = Exit.mk false true ∧
    ((overseer_t.init ⟨[]⟩).control_run sample_env sample_source [auto_t1, auto_t1]).2
      = true := by
  decide

/-! ## C3 and C4 -/

theorem storage_get_put (storage : storage_t) (id : String) (object : Record) :
    (storage.put id object).get id = some object := by
  simp [storage_t.put, storage_t.get]

theorem storage_get_put_other (storage : storage_t) (id other : String) (object : Record)
    (h : other ≠ id) : (storage.put id object).get other = storage.get other := by
  have hne : ¬ id = other := fun h2 => h h2.symm
  simp [storage_t.put, storage_t.get, List.find?, hne]

theorem storage_has_put_other (storage : storage_t) (id other : String) (object : Record)
    (h : other ≠ id) : (storage.put id object).has other = storage.has other := by
  have hne : ¬ id = other := fun h2 => h h2.symm
  simp [storage_t.put, storage_t.has, hne]

theorem persist_m_storage (env : Env) (source : source_t) (s : overseer_t)
    (message : Message) (key : String) :
    (s.persist env source message key).m_storage =
      if message.args.transient.getD false = true then s.m_storage
      else if s.m_storage.has (env.digest (key ++ message.token)) = true then s.m_storage
      else s.m_storage.put (env.digest (key ++ message.token))
        (Record.mk source.uri message.args message.token) := by
  simp only [overseer_t.persist]
  cases message.args.transient.getD false <;>
    cases s.m_storage.has (env.digest (key ++ message.token)) <;> simp

theorem schedule_m_storage (env : Env) (source : source_t) (s : overseer_t)
    (type : SchedulerType) (message : Message) (scheduler : scheduler_base_t)
    (h : type.construct env source message.args = .ok scheduler) :
    (s.schedule env source type message).m_storage =
      if message.args.transient.getD false = true then s.m_storage
      else if s.m_storage.has (env.digest (scheduler.m_key ++ message.token)) = true
      then s.m_storage
      else s.m_storage.put (env.digest (scheduler.m_key ++ message.token))
        (Record.mk source.uri message.args message.token) := by
  rw [schedule_ok env source s type message scheduler h]
  simp [persist_m_storage]

/-- C4: for every schedule message whose scheduler is constructed, a transient request leaves
the storage unchanged; a request that is not transient, when nothing exists under
`digest(key + token)`, performs the one put of the record with the plugin uri, the args of
the message and the token of its future under that digest, so that this record is what the
digest holds afterwards and every other storage key holds what it held before. -/
theorem schedule_persists_record (env : Env) (source : source_t) (s : overseer_t)
    (type : SchedulerType) (message : Message) (key : String)
    (h : schedule_key env source type message = some key) :
    (message.args.transient.getD false = true →
      (s.schedule env source type message).m_storage = s.m_storage) ∧
    (message.args.transient.getD false = false →
      s.m_storage.has (env.digest (key ++ message.token)) = false →
        (s.schedule env source type message).m_storage =
          s.m_storage.put (env.digest (key ++ message.token))
            (Record.mk source.uri message.args message.token) ∧
        (s.schedule env source type message).m_storage.get
            (env.digest (key ++ message.token)) =
          some (Record.mk source.uri message.args message.token) ∧
        ∀ other, other ≠ env.digest (key ++ message.token) →
          (s.schedule env source type message).m_storage.get other = s.m_storage.get other ∧
          (s.schedule env source type message).m_storage.has other = s.m_storage.has other) := by
  obtain ⟨scheduler, hc, rfl⟩ := (schedule_key_eq_some env source type message _).mp h
  have hs := schedule_m_storage env source s type message scheduler hc
  refine ⟨?_, ?_⟩
  · intro ht; rw [hs]; simp [ht]
  · intro ht hh
    have hput : (s.schedule env source type message).m_storage =
        s.m_storage.put (env.digest (scheduler.m_key ++ message.token))
          (Record.mk source.uri message.args message.token) := by
      rw [hs]; simp [ht, hh]
    refine ⟨hput, ?_, ?_⟩
    · rw [hput]; exact storage_get_put _ _ _
    · intro other hne
      rw [hput]
      exact ⟨storage_get_put_other _ _ _ _ hne, storage_has_put_other _ _ _ _ hne⟩

/-- Witness of C4: the request `auto_t1`, which is not transient, on a fresh overseer with an
empty storage. -/
theorem schedule_persists_record_witness :
    (schedule_key sample_env sample_source .auto_scheduler_t auto_t1 = some "auto:H@1" ∧
     auto_t1.args.transient.getD false = false ∧
     (overseer_t.init ⟨[]⟩).m_storage.has
       (sample_env.digest ("auto:H@1" ++ auto_t1.token)) = false) ∧
    ((overseer_t.init ⟨[]⟩).schedule sample_env sample_source .auto_scheduler_t
        auto_t1).m_storage =
      (overseer_t.init ⟨[]⟩).m_storage.put (sample_env.digest ("auto:H@1" ++ auto_t1.token))
        (Record.mk sample_source.uri auto_t1.args auto_t1.token) :=
  ⟨by decide,
   ((schedule_persists_record sample_env sample_source (overseer_t.init ⟨[]⟩)
      .auto_scheduler_t auto_t1 "auto:H@1" (by decide)).2 (by decide) (by decide)).1⟩

/-! ## C5 -/

theorem fetch_cached (source : source_t) (s : overseer_t) (h : s.m_cached = true) :
    s.fetch source = (s.m_cache, s) := by
  simp [overseer_t.fetch, h]

theorem fetch_ok (source : source_t) (s : overseer_t) (dict : dict_t)
    (h : s.m_cached = false) (hf : source.fetch s.fetches = .ok dict) :
    s.fetch source =
      (dict, { s with m_cache := dict, m_cached := true, fetches := s.fetches + 1 }) := by
  simp [overseer_t.fetch, h, hf]

theorem fetch_error (source : source_t) (s : overseer_t) (what : String)
    (h : s.m_cached = false) (hf : source.fetch s.fetches = .error what) :
    s.fetch source =
      (s.m_cache, overseer_t.suicide source { s with fetches := s.fetches + 1 }) := by
  simp [overseer_t.fetch, h, hf]

theorem fetch_times_cached (source : source_t) (k : Nat) :
    ∀ s : overseer_t, s.m_cached = true →
      overseer_t.fetch_times source k s = (List.replicate k s.m_cache, s) := by
  induction k with
  | zero => intro s _; rfl
  | succ k ih =>
    intro s h
    simp only [overseer_t.fetch_times, fetch_cached source s h, ih s h, List.replicate_succ]

/-- From a state with nothing cached: while the plugin raises every call of `fetch` asks it
again and returns the empty mapping; the first mapping it returns is cached. -/
theorem fetch_times_uncached (source : source_t) (dict : dict_t) (k : Nat) :
    ∀ (j : Nat) (s : overseer_t), s.m_cached = false → s.m_cache = [] →
      (∀ i, i < j → i < k → ∃ what, source.fetch (s.fetches + i) = .error what) →
      (j < k → source.fetch (s.fetches + j) = .ok dict) →
      (overseer_t.fetch_times source k s).1
        = List.replicate (min j k) [] ++ List.replicate (k - j) dict ∧
      (overseer_t.fetch_times source k s).2.fetches = s.fetches + min k (j + 1) := by
  induction k with
  | zero => intro j s _ _ _ _; simp [overseer_t.fetch_times]
  | succ k ih =>
    intro j s hc he hfail hok
    cases j with
    | zero =>
      have hf : source.fetch s.fetches = .ok dict := by simpa using hok (Nat.succ_pos k)
      simp only [overseer_t.fetch_times, fetch_ok source s dict hc hf]
      rw [fetch_times_cached source k _ rfl]
      simp [List.replicate_succ]
    | succ j =>
      obtain ⟨what, hf⟩ := hfail 0 (Nat.succ_pos j) (Nat.succ_pos k)
      simp only [Nat.add_zero] at hf
      simp only [overseer_t.fetch_times, fetch_error source s what hc hf]
      have hrec := ih j (overseer_t.suicide source { s with fetches := s.fetches + 1 })
        hc he
        (fun i hi hik => by
          obtain ⟨w, hw⟩ := hfail (i + 1) (Nat.succ_lt_succ hi) (Nat.succ_lt_succ hik)
          refine ⟨w, ?_⟩
          simpa [overseer_t.suicide, Nat.add_assoc, Nat.add_comm 1 i] using hw)
        (fun hjk => by
          have hw := hok (Nat.succ_lt_succ hjk)
          simpa [overseer_t.suicide, Nat.add_assoc, Nat.add_comm 1 j] using hw)
      rw [hrec.1, hrec.2, he]
      refine ⟨?_, ?_⟩
      · simp [Nat.succ_min_succ, List.replicate_succ]
      · simp only [overseer_t.suicide, Nat.succ_min_succ]
        omega

/-- C5 as stated fails: with a plugin whose first fetch raises, two calls of `fetch()` after
the cleanup hook invoke the plugin twice and return different mappings. -/
theorem fetch_twice_invokes_plugin_twice :
    (overseer_t.fetch_times flaky_source 2 (overseer_t.init ⟨[]⟩).prepare_event).1
      = [[], [("k", "v")]] ∧
    (overseer_t.fetch_times flaky_source 2 (overseer_t.init ⟨[]⟩).prepare_event).2.fetches
      = (overseer_t.init ⟨[]⟩).prepare_event.fetches + 2 := by
  decide

/-- C5, amended: for every plugin behaviour and every K, take K calls of `fetch()` made after
a run of the cleanup hook and before the next, and let the plugin raise in the first j of
them and return a mapping in the call after those, if there is one. Then the first j calls
(at most K) return the empty mapping, every later call returns the same mapping, the one
the plugin returned, and the plugin is invoked once per call that raised and once more for
the mapping: `min K (j + 1)` times. For j = 0, a plugin whose first fetch succeeds, the
plugin is invoked exactly once and all K calls return the same mapping. -/
theorem fetch_cached_after_first_success (source : source_t) (s : overseer_t)
    (dict : dict_t) (K j : Nat)
    (hfail : ∀ i, i < j → i < K → ∃ what, source.fetch (s.fetches + i) = .error what)
    (hok : j < K → source.fetch (s.fetches + j) = .ok dict) :
    (overseer_t.fetch_times source K s.prepare_event).1
      = List.replicate (min j K) [] ++ List.replicate (K - j) dict ∧
    (overseer_t.fetch_times source K s.prepare_event).2.fetches
      = s.fetches + min K (j + 1) :=
  fetch_times_uncached source dict K j s.prepare_event rfl rfl hfail hok

/-- Witness of C5, amended: three calls on the plugin whose first fetch raises and whose
second returns one entry: the mappings are empty, then twice that entry, and the plugin is
invoked twice. -/
theorem fetch_cached_after_first_success_witness :
    ((∀ i, i < 1 → i < 3 → ∃ what,
        flaky_source.fetch ((overseer_t.init ⟨[]⟩).fetches + i) = .error what) ∧
     (1 < 3 → flaky_source.fetch ((overseer_t.init ⟨[]⟩).fetches + 1) = .ok [("k", "v")])) ∧
    ((overseer_t.fetch_times flaky_source 3 (overseer_t.init ⟨[]⟩).prepare_event).1
      = List.replicate (min 1 3) [] ++ List.replicate (3 - 1) [("k", "v")] ∧
     (overseer_t.fetch_times flaky_source 3 (overseer_t.init ⟨[]⟩).prepare_event).2.fetches
      = (overseer_t.init ⟨[]⟩).fetches + min 3 (1 + 1)) :=
  ⟨⟨fun i hi _ => ⟨"boom", by rw [Nat.lt_one_iff.mp hi]; rfl⟩, fun _ => rfl⟩,
   fetch_cached_after_first_success flaky_source (overseer_t.init ⟨[]⟩) [("k", "v")] 3 1
     (fun i hi _ => ⟨"boom", by rw [Nat.lt_one_iff.mp hi]; rfl⟩) (fun _ => rfl)⟩

/-! ## C6 -/

theorem schedule_m_futures_ok (env : Env) (source : source_t) (s : overseer_t)
    (type : SchedulerType) (message : Message) (scheduler : scheduler_base_t)
    (h : type.construct env source message.args = .ok scheduler) :
    (s.schedule env source type message).m_futures =
      s.m_futures ++ [Reply.mk message.future [("key", scheduler.m_key)]] := by
  rw [schedule_ok env source s type message scheduler h]
  simp

theorem fetch_m_futures (source : source_t) (s : overseer_t) :
    (s.fetch source).2.m_futures = s.m_futures := by
  unfold overseer_t.fetch
  split
  · rfl
  · split <;> rfl

theorem once_m_futures (source : source_t) (s : overseer_t) (message : Message) :
    (s.once source message).m_futures =
      s.m_futures ++ [Reply.mk message.future (s.fetch source).1] := by
  unfold overseer_t.once
  simp only []
  split <;> simp [overseer_t.respond, fetch_m_futures]

/-- C6 as stated fails: a `stop` message that carries a future gets no reply, and the one
reply to a `once` message carries the fetched mapping, which is neither a scheduler key nor
an error. -/
theorem stop_gets_no_reply :
    stop_t1.future = some (Future.mk "t1") ∧
    ((overseer_t.init ⟨[]⟩).control_event sample_env sample_source [stop_t1]).m_futures
      = (overseer_t.init ⟨[]⟩).m_futures ∧
    ((overseer_t.init ⟨[]⟩).control_event sample_env sample_source [once_t1]).m_futures
      = [Reply.mk (some (Future.mk "t1")) [("k", "v")]] := by
  decide

/-- C6, amended: for every `auto` or `manual` control message whose scheduler is constructed,
over a storage whose calls return, the overseer sends exactly one reply for the future of
the message, and it carries the scheduler key; for every `once` message it sends exactly one
reply, which carries the mapping that `fetch()` returned. -/
theorem built_schedule_and_once_reply_once (env : Env) (source : source_t) (s : overseer_t)
    (message : Message) :
    (∀ (type : SchedulerType) (key : String), message.scheduler_type = some type →
      schedule_key env source type message = some key →
        (s.schedule_call env source type none message).2.raised = false ∧
        (s.schedule_call env source type none message).1.m_futures =
          s.m_futures ++ [Reply.mk message.future [("key", key)]] ∧
        s.control_event env source [message] =
          (s.schedule_call env source type none message).1) ∧
    (message.command = "once" →
      (s.control_event env source [message]).m_futures =
        s.m_futures ++ [Reply.mk message.future (s.fetch source).1]) := by
  refine ⟨?_, ?_⟩
  · intro type key ht hkey
    obtain ⟨scheduler, hc, rfl⟩ := (schedule_key_eq_some env source type message key).mp hkey
    rw [control_event_schedule env source s message [] type ht,
      schedule_call_ok env source s type message scheduler hc]
    exact ⟨rfl, schedule_m_futures_ok env source s type message scheduler hc, rfl⟩
  · intro hc
    have h1 : ¬ message.command = "auto" := by rw [hc]; decide
    have h2 : ¬ message.command = "manual" := by rw [hc]; decide
    simp only [overseer_t.control_event, h1, h2, hc, if_true, if_false]
    exact once_m_futures source s message

/-- Witness of C6, amended: the `auto` request and the `once` request of token `t1`, each on
a fresh overseer. -/
theorem built_schedule_and_once_reply_once_witness :
    (auto_t1.scheduler_type = some .auto_scheduler_t ∧
     schedule_key sample_env sample_source .auto_scheduler_t auto_t1 = some "auto:H@1" ∧
     once_t1.command = "once") ∧
    (((overseer_t.init ⟨[]⟩).schedule_call sample_env sample_source .auto_scheduler_t none
        auto_t1).2.raised = false ∧
     ((overseer_t.init ⟨[]⟩).schedule_call sample_env sample_source .auto_scheduler_t none
        auto_t1).1.m_futures =
      (overseer_t.init ⟨[]⟩).m_futures ++ [Reply.mk auto_t1.future [("key", "auto:H@1")]] ∧
     (overseer_t.init ⟨[]⟩).control_event sample_env sample_source [auto_t1] =
      ((overseer_t.init ⟨[]⟩).schedule_call sample_env sample_source .auto_scheduler_t none
        auto_t1).1) ∧
    ((overseer_t.init ⟨[]⟩).control_event sample_env sample_source [once_t1]).m_futures =
      (overseer_t.init ⟨[]⟩).m_futures ++
        [Reply.mk once_t1.future ((overseer_t.init ⟨[]⟩).fetch sample_source).1] :=
  ⟨by decide,
   (built_schedule_and_once_reply_once sample_env sample_source (overseer_t.init ⟨[]⟩)
      auto_t1).1 .auto_scheduler_t "auto:H@1" (by decide) (by decide),
   (built_schedule_and_once_reply_once sample_env sample_source (overseer_t.init ⟨[]⟩)
      once_t1).2 rfl⟩

/-! ## C7 -/

/-- The test of the constructor on the double `n / 1000.0` is a test on the integer `n`. -/
theorem m_interval_nonpos_iff (n : Int) : ((n : ℚ) / 1000 ≤ 0) ↔ n ≤ 0 := by
  rw [div_le_iff₀ (by norm_num : (0 : ℚ) < 1000)]
  simp

theorem auto_construct_faults (source : source_t) (args : Args)
    (h : args.interval.getD 0 ≤ 0 ∨ 2 ^ 31 ≤ args.interval.getD 0) :
    ∃ what, auto_scheduler_t source args = .faults what := by
  unfold auto_scheduler_t
  simp only []
  by_cases h1 : args.interval.getD 0 < -(2 ^ 31) ∨ 2 ^ 31 ≤ args.interval.getD 0
  · rw [if_pos h1]
    exact ⟨_, rfl⟩
  · rw [if_neg h1, if_pos (by omega)]
    exact ⟨_, rfl⟩

theorem auto_construct_invalid (source : source_t) (args : Args)
    (hlow : -(2 ^ 31) ≤ args.interval.getD 0) (h : args.interval.getD 0 ≤ 0) :
    auto_scheduler_t source args = .faults "invalid interval" := by
  have h1 : ¬ (args.interval.getD 0 < -(2 ^ 31) ∨ 2 ^ 31 ≤ args.interval.getD 0) := by
    omega
  simp only [auto_scheduler_t, Construction.unwind, scheduler_base_t.construct,
    scheduler_base_t.destructor_faults]
  rw [if_neg h1, if_pos h]
  rfl

theorem auto_construct_ok (source : source_t) (args : Args)
    (h : 0 < args.interval.getD 0) (hint : args.interval.getD 0 < 2 ^ 31) :
    auto_scheduler_t source args =
      .ok { m_key := "auto:" ++ source.hash ++ "@"
              ++ stream_millis (args.interval.getD 0).toNat,
            variant := .automatic (args.interval.getD 0), m_watcher := false } := by
  have h1 : ¬ (args.interval.getD 0 < -(2 ^ 31) ∨ 2 ^ 31 ≤ args.interval.getD 0) := by
    omega
  simp only [auto_scheduler_t, scheduler_base_t.construct]
  rw [if_neg h1, if_neg (not_le.mpr h)]

/-- An `auto` request constructs a scheduler exactly when its interval, 0 when absent, is a
positive C `int`; otherwise the call is left by the fault, in the state it was entered in:
nothing is sent on the reply channel. -/
theorem auto_schedule_call (env : Env) (source : source_t) (s : overseer_t)
    (fault : Option StorageFault) (message : Message) :
    ((schedule_key env source .auto_scheduler_t message).isSome = true ↔
      (0 < message.args.interval.getD 0 ∧ message.args.interval.getD 0 < 2 ^ 31)) ∧
    (message.args.interval.getD 0 ≤ 0 →
      s.schedule_call env source .auto_scheduler_t fault message = (s, Exit.mk false true)) := by
  refine ⟨?_, ?_⟩
  · by_cases h : 0 < message.args.interval.getD 0 ∧ message.args.interval.getD 0 < 2 ^ 31
    · have hc : SchedulerType.auto_scheduler_t.construct env source message.args = _ :=
        auto_construct_ok source message.args h.1 h.2
      exact ⟨fun _ => h, fun _ => by simp [schedule_key, hc]⟩
    · obtain ⟨what, hw⟩ := auto_construct_faults source message.args (by omega)
      have hc : SchedulerType.auto_scheduler_t.construct env source message.args = _ := hw
      exact ⟨fun hs => by simp [schedule_key, hc] at hs, fun h2 => absurd h2 h⟩
  · intro h
    obtain ⟨what, hw⟩ := auto_construct_faults source message.args (Or.inl h)
    exact schedule_call_faults env source s .auto_scheduler_t fault message what hw

/-- C7, the code at the failing input: the `auto` request with interval 0 on a fresh
overseer. The constructor throws `invalid interval` from its body; the base of the scheduler
under construction is destroyed before the exception leaves the expression, and its
destructor dereferences the null `m_watcher`. The handler that sends the error reply is not
reached: the call is left by the fault and nothing was sent on the reply channel. -/
theorem auto_zero_gets_no_reply :
    auto_zero.args.interval.getD 0 ≤ 0 ∧
    SchedulerType.auto_scheduler_t.construct sample_env sample_source auto_zero.args
      = .faults "invalid interval" ∧
    (overseer_t.init ⟨[]⟩).schedule_call sample_env sample_source .auto_scheduler_t none
        auto_zero = (overseer_t.init ⟨[]⟩, Exit.mk false true) ∧
    ((overseer_t.init ⟨[]⟩).schedule_call sample_env sample_source .auto_scheduler_t none
        auto_zero).1.m_futures = [] ∧
    (overseer_t.init ⟨[]⟩).control_run sample_env sample_source [auto_zero]
      = (overseer_t.init ⟨[]⟩, true) := by
  decide

/-! ## C8 -/

theorem manual_construct_faults (env : Env) (source : source_t) (args : Args)
    (h : source.capabilities &&& env.CAP_MANUAL = 0) :
    manual_scheduler_t env source args = .faults "manual scheduling is not supported" := by
  simp only [manual_scheduler_t, Construction.unwind, scheduler_base_t.construct,
    scheduler_base_t.destructor_faults]
  rw [if_pos h]
  rfl

theorem manual_construct_ok (env : Env) (source : source_t) (args : Args)
    (h : source.capabilities &&& env.CAP_MANUAL ≠ 0) :
    manual_scheduler_t env source args =
      .ok { m_key := "manual:" ++ source.hash, variant := .manual, m_watcher := false } := by
  simp only [manual_scheduler_t, scheduler_base_t.construct]
  rw [if_neg h]

/-- A `manual` request constructs a scheduler exactly when the plugin has the `CAP_MANUAL`
flag. With the flag the key is `manual:` followed by the plugin hash and, over a storage
whose calls return, the reply carries that key. Without it the call is left by the fault,
in the state it was entered in: nothing is sent on the reply channel. -/
theorem manual_schedule_call (env : Env) (source : source_t) (s : overseer_t)
    (fault : Option StorageFault) (message : Message) :
    ((schedule_key env source .manual_scheduler_t message).isSome = true
      ↔ source.capabilities &&& env.CAP_MANUAL ≠ 0) ∧
    (source.capabilities &&& env.CAP_MANUAL ≠ 0 →
      schedule_key env source .manual_scheduler_t message = some ("manual:" ++ source.hash) ∧
      (s.schedule env source .manual_scheduler_t message).m_futures =
        s.m_futures ++ [Reply.mk message.future [("key", "manual:" ++ source.hash)]]) ∧
    (source.capabilities &&& env.CAP_MANUAL = 0 →
      s.schedule_call env source .manual_scheduler_t fault message
        = (s, Exit.mk false true)) := by
  by_cases h : source.capabilities &&& env.CAP_MANUAL = 0
  · have hc : SchedulerType.manual_scheduler_t.construct env source message.args
        = .faults "manual scheduling is not supported" :=
      manual_construct_faults env source message.args h
    refine ⟨?_, ?_, ?_⟩
    · simp [schedule_key, hc, h]
    · intro h2
      exact absurd h h2
    · intro _
      exact schedule_call_faults env source s .manual_scheduler_t fault message _ hc
  · have hc : SchedulerType.manual_scheduler_t.construct env source message.args = _ :=
      manual_construct_ok env source message.args h
    refine ⟨?_, ?_, ?_⟩
    · simp [schedule_key, hc, h]
    · intro _
      exact ⟨by simp [schedule_key, hc],
        schedule_m_futures_ok env source s .manual_scheduler_t message _ hc⟩
    · intro h2
      exact absurd h2 h

/-- C8, the code at the failing input: the `manual` request on a plugin without the
`CAP_MANUAL` flag, on a fresh overseer. The constructor throws
`manual scheduling is not supported` from its body; the base of the scheduler under
construction is destroyed before the exception leaves the expression, and its destructor
dereferences the null `m_watcher`. The handler that sends the error reply is not reached:
the call is left by the fault and nothing was sent on the reply channel. -/
theorem manual_without_flag_gets_no_reply :
    plain_source.capabilities &&& sample_env.CAP_MANUAL = 0 ∧
    SchedulerType.manual_scheduler_t.construct sample_env plain_source manual_t1.args
      = .faults "manual scheduling is not supported" ∧
    (overseer_t.init ⟨[]⟩).schedule_call sample_env plain_source .manual_scheduler_t none
        manual_t1 = (overseer_t.init ⟨[]⟩, Exit.mk false true) ∧
    ((overseer_t.init ⟨[]⟩).schedule_call sample_env plain_source .manual_scheduler_t none
        manual_t1).1.m_futures = [] ∧
    (overseer_t.init ⟨[]⟩).control_run sample_env plain_source [manual_t1]
      = (overseer_t.init ⟨[]⟩, true) := by
  decide

/-! ## C9 -/

/-- C9 as stated fails: for the hash `H` and the interval 1000 the key of the automatic
scheduler, which is also the key in the reply, is `auto:H@1`, not `auto:H@1.0`: the stream
prints the double 1.0 as `1`. -/
theorem auto_key_of_one_second :
    schedule_key sample_env sample_source .auto_scheduler_t auto_t1 = some "auto:H@1" ∧
    schedule_key sample_env sample_source .auto_scheduler_t auto_t1 ≠ some "auto:H@1.0" ∧
    ((overseer_t.init ⟨[]⟩).schedule sample_env sample_source .auto_scheduler_t
        auto_t1).m_futures = [Reply.mk (some (Future.mk "t1")) [("key", "auto:H@1")]] := by
  decide

/-- C9, amended: for every plugin hash H and every interval of n milliseconds, n a positive
C `int`, the key of the automatic scheduler is `auto:` + H + `@` + the text the stream
prints for the double n / 1000.0 (general notation, six significant digits, no zeros
ending the fraction, no bare point), and the reply carries that key; for the interval 1000
that text is `1`, so that for the hash `H` the key is `auto:H@1`. -/
theorem auto_key_format (env : Env) (source : source_t) (s : overseer_t)
    (message : Message) (n : Int) (hn : message.args.interval = some n)
    (hpos : 0 < n) (_hint : n < 2 ^ 31) :
    schedule_key env source .auto_scheduler_t message =
      some ("auto:" ++ source.hash ++ "@" ++ stream_millis n.toNat) ∧
    (s.schedule env source .auto_scheduler_t message).m_futures =
      s.m_futures ++ [Reply.mk message.future
        [("key", "auto:" ++ source.hash ++ "@" ++ stream_millis n.toNat)]] ∧
    (n = 1000 → source.hash = "H" →
      schedule_key env source .auto_scheduler_t message = some "auto:H@1") := by
  have hg : message.args.interval.getD 0 = n := by simp [hn]
  have hc := auto_construct_ok source message.args (by rw [hg]; exact hpos)
    (by rw [hg]; exact _hint)
  rw [hg] at hc
  have hc2 : SchedulerType.auto_scheduler_t.construct env source message.args = _ := hc
  have hk : schedule_key env source .auto_scheduler_t message =
      some ("auto:" ++ source.hash ++ "@" ++ stream_millis n.toNat) := by
    simp [schedule_key, hc2]
  refine ⟨hk, schedule_m_futures_ok env source s .auto_scheduler_t message _ hc2, ?_⟩
  intro h1 h2
  rw [hk, h1, h2]
  decide

/-- Witness of C9, amended: the request `auto` with interval 1000 on the plugin of hash
`H`. -/
theorem auto_key_format_witness :
    (auto_t1.args.interval = some 1000 ∧ (0 : Int) < 1000 ∧ (1000 : Int) < 2 ^ 31 ∧
      sample_source.hash = "H") ∧
    schedule_key sample_env sample_source .auto_scheduler_t auto_t1 = some "auto:H@1" :=
  ⟨by decide,
   (auto_key_format sample_env sample_source (overseer_t.init ⟨[]⟩) auto_t1 1000 rfl
      (by decide) (by decide)).2.2 rfl rfl⟩

/-! ## C10 -/

/-- What `manual_scheduler_t::reschedule` computes: `now` after one plugin call when `now` is
not before the value of that call, and otherwise the value of a second plugin call. -/
theorem manual_reschedule_cases (source : source_t) (calls : Nat) (now : tstamp) :
    (source.reschedule calls ≤ now →
      manual_scheduler_t.reschedule source calls now = (now, calls + 1)) ∧
    (now < source.reschedule calls →
      manual_scheduler_t.reschedule source calls now
        = (source.reschedule (calls + 1), calls + 2)) := by
  unfold manual_scheduler_t.reschedule
  refine ⟨fun h => by simp [h], fun h => by simp [not_le.mpr h]⟩

/-- For a plugin that answers the second call as the first, the result is the larger of
`now` and that answer. -/
theorem manual_reschedule_stable (source : source_t) (calls : Nat) (now : tstamp)
    (h : source.reschedule (calls + 1) = source.reschedule calls) :
    (manual_scheduler_t.reschedule source calls now).1 = max now (source.reschedule calls) := by
  unfold manual_scheduler_t.reschedule
  by_cases hle : source.reschedule calls ≤ now
  · simp [hle]
  · simp [hle, h, le_of_lt (not_le.mp hle)]

/-- C10, the code at the failing input: at `now = 10`, with a plugin whose `reschedule()`
returns 20 on the first call and 5 on the second, `manual_scheduler_t::reschedule` calls the
plugin twice and returns 5, which is earlier than `now` and is not `max(10, 20) = 20`. -/
theorem manual_reschedule_before_now :
    sample_source.reschedule 0 = 20 ∧ sample_source.reschedule 1 = 5 ∧
    manual_scheduler_t.reschedule sample_source 0 10 = (5, 2) ∧
    (manual_scheduler_t.reschedule sample_source 0 10).1 < 10 ∧
    (manual_scheduler_t.reschedule sample_source 0 10).1
      ≠ max 10 (sample_source.reschedule 0) := by
  decide

/-! ## C11 -/

/-- C11: on a trigger of a scheduler, `publish` sends no frame at all when the mapping that
the overseer's `fetch()` returns has size zero; otherwise it sends exactly two frames, one
after the other: the bytes of the scheduler key with the more-to-follow flag, then the
serialized mapping as the final frame. The overseer is left as `fetch()` leaves it. -/
theorem publish_key_then_mapping (pack : dict_t → String) (source : source_t)
    (scheduler : scheduler_base_t) (s : overseer_t) :
    ((s.fetch source).1.length = 0 → (scheduler.publish pack source s).1 = []) ∧
    ((s.fetch source).1.length ≠ 0 →
      (scheduler.publish pack source s).1 =
        [Frame.mk scheduler.m_key true, Frame.mk (pack (s.fetch source).1) false]) ∧
    (scheduler.publish pack source s).2 = (s.fetch source).2 := by
  unfold scheduler_base_t.publish
  refine ⟨fun h => by rw [if_pos h], fun h => by rw [if_neg h], ?_⟩
  split <;> rfl

/-- Witness of C11: a trigger of the scheduler of key `auto:H@1` on the sample plugin, whose
mapping has one entry, and on a plugin whose first fetch raises, which gives the empty
mapping. -/
theorem publish_key_then_mapping_witness :
    (((overseer_t.init ⟨[]⟩).fetch sample_source).1.length ≠ 0 ∧
     ((overseer_t.init ⟨[]⟩).fetch flaky_source).1.length = 0) ∧
    ((scheduler_base_t.mk "auto:H@1" (.automatic 1000) true).publish sample_pack
        sample_source (overseer_t.init ⟨[]⟩)).1 =
      [Frame.mk "auto:H@1" true,
       Frame.mk (sample_pack ((overseer_t.init ⟨[]⟩).fetch sample_source).1) false] ∧
    ((scheduler_base_t.mk "auto:H@1" (.automatic 1000) true).publish sample_pack
        flaky_source (overseer_t.init ⟨[]⟩)).1 = [] :=
  ⟨by decide,
   (publish_key_then_mapping sample_pack sample_source
      (scheduler_base_t.mk "auto:H@1" (.automatic 1000) true) (overseer_t.init ⟨[]⟩)).2.1
      (by decide),
   (publish_key_then_mapping sample_pack flaky_source
      (scheduler_base_t.mk "auto:H@1" (.automatic 1000) true) (overseer_t.init ⟨[]⟩)).1
      (by decide)⟩

/-! ## C12 -/

theorem fetch_m_reaper_error (source : source_t) (s : overseer_t) (what : String)
    (h : s.m_cached = false) (hf : source.fetch s.fetches = .error what) :
    (s.fetch source).2.m_reaper = s.m_reaper ++ [ReaperMessage.mk source.uri "default"] := by
  rw [fetch_error source s what h hf]
  rfl

theorem once_m_reaper (source : source_t) (s : overseer_t) (message : Message) :
    (s.once source message).m_reaper = (s.fetch source).2.m_reaper := by
  unfold overseer_t.once
  simp only []
  split <;> rfl

/-- C12 as stated fails: when the plugin's fetch raises, the reply to a `once` message
carries no error; it carries the empty mapping. -/
theorem once_replies_empty_on_failure :
    flaky_source.fetch (overseer_t.init ⟨[]⟩).fetches = .error "boom" ∧
    ((overseer_t.init ⟨[]⟩).once flaky_source once_t1).m_futures
      = [Reply.mk (some (Future.mk "t1")) []] :=
  ⟨rfl, by decide⟩

/-- C12, amended: for every `once` message the overseer sends one reply to the future of the
message, and the reply carries the mapping that `fetch()` returned: the cached mapping when
one is cached, the mapping of the plugin when nothing is cached and the plugin's fetch
succeeds, and, when nothing is cached and the plugin's fetch raises, what the cache holds
(after the cleanup hook: the empty mapping) without any error member; in this last case a
reaper message is sent as well. -/
theorem once_replies_with_fetch_result (source : source_t) (s : overseer_t)
    (message : Message) :
    (s.once source message).m_futures =
      s.m_futures ++ [Reply.mk message.future (s.fetch source).1] ∧
    (s.m_cached = true → (s.fetch source).1 = s.m_cache) ∧
    (∀ dict, s.m_cached = false → source.fetch s.fetches = .ok dict →
      (s.fetch source).1 = dict) ∧
    (∀ what, s.m_cached = false → source.fetch s.fetches = .error what →
      (s.fetch source).1 = s.m_cache ∧
      ((s.prepare_event.once source message).m_futures =
        s.m_futures ++ [Reply.mk message.future []]) ∧
      (s.once source message).m_reaper =
        s.m_reaper ++ [ReaperMessage.mk source.uri "default"]) := by
  refine ⟨once_m_futures source s message, ?_, ?_, ?_⟩
  · intro h; rw [fetch_cached source s h]
  · intro dict h hf; rw [fetch_ok source s dict h hf]
  · intro what h hf
    refine ⟨by rw [fetch_error source s what h hf], ?_, ?_⟩
    · rw [once_m_futures, fetch_error source s.prepare_event what rfl hf]
      rfl
    · rw [once_m_reaper, fetch_m_reaper_error source s what h hf]

/-- Witness of C12, amended: the `once` request on a fresh overseer, with the sample plugin
and with the plugin whose first fetch raises. -/
theorem once_replies_with_fetch_result_witness :
    (((overseer_t.init ⟨[]⟩).m_cached = false ∧
      sample_source.fetch (overseer_t.init ⟨[]⟩).fetches = .ok [("k", "v")]) ∧
     flaky_source.fetch (overseer_t.init ⟨[]⟩).fetches = .error "boom") ∧
    ((overseer_t.init ⟨[]⟩).fetch sample_source).1 = [("k", "v")] ∧
    ((overseer_t.init ⟨[]⟩).once flaky_source once_t1).m_reaper =
      (overseer_t.init ⟨[]⟩).m_reaper ++ [ReaperMessage.mk flaky_source.uri "default"] :=
  ⟨⟨⟨rfl, rfl⟩, rfl⟩,
   (once_replies_with_fetch_result sample_source (overseer_t.init ⟨[]⟩) once_t1).2.2.1
      [("k", "v")] rfl rfl,
   ((once_replies_with_fetch_result flaky_source (overseer_t.init ⟨[]⟩) once_t1).2.2.2
      "boom" rfl rfl).2.2⟩

/-! ## C13 -/

/-- Over a storage whose calls return, `schedule_raising` is `schedule`. -/
theorem schedule_raising_none (env : Env) (source : source_t) (type : SchedulerType)
    (s : overseer_t) (message : Message) :
    s.schedule_raising env source type none message
      = (s.schedule env source type message, false) := by
  unfold overseer_t.schedule_raising overseer_t.schedule
  cases h : type.construct env source message.args with
  | throws what => simp [overseer_t.schedule_call, h]
  | faults what => simp [overseer_t.schedule_call, h]
  | ok scheduler => simp [overseer_t.schedule_call, h, persist_report_fst_none]

/-- C13 as stated fails: when `exists()` or `put()` of the storage raises during a schedule
that is not transient and whose scheduler is constructed, the exception leaves `schedule`
and no reply is sent. -/
theorem storage_failure_suppresses_reply :
    auto_t1.args.transient.getD false = false ∧
    schedule_key sample_env sample_source .auto_scheduler_t auto_t1 = some "auto:H@1" ∧
    ((overseer_t.init ⟨[]⟩).schedule_raising sample_env sample_source .auto_scheduler_t
        (some .exists_raises) auto_t1).2 = true ∧
    ((overseer_t.init ⟨[]⟩).schedule_raising sample_env sample_source .auto_scheduler_t
        (some .exists_raises) auto_t1).1.m_futures = [] ∧
    ((overseer_t.init ⟨[]⟩).schedule_raising sample_env sample_source .auto_scheduler_t
        (some .put_raises) auto_t1).2 = true ∧
    ((overseer_t.init ⟨[]⟩).schedule_raising sample_env sample_source .auto_scheduler_t
        (some .put_raises) auto_t1).1.m_futures = [] := by
  decide

/-- C13, amended: for every schedule message that is not transient and whose scheduler is
constructed, the overseer replies to the future with the scheduler key when the storage
calls made return. When `exists()` raises, or when nothing exists under the digest and
`put()` raises, the exception leaves `schedule` before the reply: no reply is sent and the
storage is not written, while the scheduler table and the subscriptions are as the
schedule made them. -/
theorem schedule_reply_needs_storage (env : Env) (source : source_t) (s : overseer_t)
    (type : SchedulerType) (message : Message) (scheduler : scheduler_base_t)
    (hc : type.construct env source message.args = .ok scheduler)
    (ht : message.args.transient.getD false = false) :
    ((s.schedule_raising env source type none message).2 = false ∧
      (s.schedule_raising env source type none message).1.m_futures =
        s.m_futures ++ [Reply.mk message.future [("key", scheduler.m_key)]]) ∧
    ((s.schedule_raising env source type (some .exists_raises) message).2 = true ∧
      (s.schedule_raising env source type (some .exists_raises) message).1 =
        (s.schedule_insert scheduler).subscribe message.token scheduler.m_key ∧
      (s.schedule_raising env source type (some .exists_raises) message).1.m_futures
        = s.m_futures) ∧
    (s.m_storage.has (env.digest (scheduler.m_key ++ message.token)) = false →
      (s.schedule_raising env source type (some .put_raises) message).2 = true ∧
      (s.schedule_raising env source type (some .put_raises) message).1 =
        (s.schedule_insert scheduler).subscribe message.token scheduler.m_key ∧
      (s.schedule_raising env source type (some .put_raises) message).1.m_futures
        = s.m_futures) := by
  refine ⟨?_, ?_, ?_⟩
  · rw [schedule_raising_none]
    exact ⟨rfl, schedule_m_futures_ok env source s type message scheduler hc⟩
  · simp [overseer_t.schedule_raising, overseer_t.schedule_call, overseer_t.persist_report,
      hc, ht]
  · intro hh
    simp [overseer_t.schedule_raising, overseer_t.schedule_call, overseer_t.persist_report,
      hc, ht, hh]

/-- Witness of C13, amended: the request `auto_t1`, which is not transient, on a fresh
overseer with an empty storage. -/
theorem schedule_reply_needs_storage_witness :
    (SchedulerType.auto_scheduler_t.construct sample_env sample_source auto_t1.args
        = .ok (scheduler_base_t.mk "auto:H@1" (.automatic 1000) false) ∧
     auto_t1.args.transient.getD false = false ∧
     (overseer_t.init ⟨[]⟩).m_storage.has
       (sample_env.digest ("auto:H@1" ++ auto_t1.token)) = false) ∧
    ((overseer_t.init ⟨[]⟩).schedule_raising sample_env sample_source .auto_scheduler_t
        (some .put_raises) auto_t1).2 = true ∧
    ((overseer_t.init ⟨[]⟩).schedule_raising sample_env sample_source .auto_scheduler_t
        (some .put_raises) auto_t1).1.m_futures = (overseer_t.init ⟨[]⟩).m_futures :=
  ⟨⟨rfl, by decide, by decide⟩,
   ((schedule_reply_needs_storage sample_env sample_source (overseer_t.init ⟨[]⟩)
      .auto_scheduler_t auto_t1 (scheduler_base_t.mk "auto:H@1" (.automatic 1000) false)
      rfl (by decide)).2.2 (by decide)).1,
   ((schedule_reply_needs_storage sample_env sample_source (overseer_t.init ⟨[]⟩)
      .auto_scheduler_t auto_t1 (scheduler_base_t.mk "auto:H@1" (.automatic 1000) false)
      rfl (by decide)).2.2 (by decide)).2.2⟩

/-! ## Lemmas on the thread table -/

theorem thread_find_isNone_iff (threads : List (String × thread_t)) (thread_id : String) :
    (thread_find threads thread_id).isNone = true ↔ thread_id ∉ threads.map Prod.fst := by
  induction threads with
  | nil => simp [thread_find]
  | cons t rest ih =>
    by_cases h : t.1 = thread_id
    · simp [thread_find, List.find?, h]
    · have hne : ¬ thread_id = t.1 := fun h2 => h h2.symm
      simpa [thread_find, List.find?, h, hne] using ih

theorem thread_find_eq_none_iff (threads : List (String × thread_t)) (thread_id : String) :
    thread_find threads thread_id = none ↔ thread_id ∉ threads.map Prod.fst := by
  rw [← thread_find_isNone_iff, Option.isNone_iff_eq_none]

theorem thread_find_cons (t : String × thread_t) (rest : List (String × thread_t))
    (thread_id : String) :
    thread_find (t :: rest) thread_id =
      if t.1 = thread_id then some t.2 else thread_find rest thread_id := by
  by_cases h : t.1 = thread_id <;> simp [thread_find, List.find?, h]

theorem thread_send_ids (threads : List (String × thread_t)) (thread_id : String)
    (message : Message) :
    (thread_send threads thread_id message).map Prod.fst = threads.map Prod.fst := by
  induction threads with
  | nil => rfl
  | cons t rest ih =>
    unfold thread_send
    split
    · rfl
    · simp [ih]

theorem thread_find_send (threads : List (String × thread_t)) (thread_id : String)
    (message : Message) :
    thread_find (thread_send threads thread_id message) thread_id =
      (thread_find threads thread_id).map (fun t => thread_t.mk (t.m_pipe ++ [message])) := by
  induction threads with
  | nil => rfl
  | cons t rest ih =>
    unfold thread_send
    by_cases h : t.1 = thread_id
    · simp [thread_find_cons, h]
    · simp [thread_find_cons, h, ih]

theorem thread_find_send_other (threads : List (String × thread_t)) (thread_id other : String)
    (message : Message) (hne : other ≠ thread_id) :
    thread_find (thread_send threads thread_id message) other = thread_find threads other := by
  induction threads with
  | nil => rfl
  | cons t rest ih =>
    unfold thread_send
    by_cases h : t.1 = thread_id
    · have h2 : ¬ thread_id = other := fun h3 => hne h3.symm
      simp [thread_find_cons, h, h2]
    · simp [thread_find_cons, h, ih]

theorem thread_insert_absent (threads : List (String × thread_t)) (thread_id : String)
    (thread : thread_t) (h : thread_find threads thread_id = none) :
    thread_insert threads thread_id thread = threads ++ [(thread_id, thread)] := by
  simp [thread_insert, h]

theorem thread_find_append_absent (threads : List (String × thread_t)) (thread_id : String)
    (thread : thread_t) (h : thread_find threads thread_id = none) :
    thread_find (threads ++ [(thread_id, thread)]) thread_id = some thread := by
  induction threads with
  | nil => simp [thread_find]
  | cons t rest ih =>
    rw [thread_find_cons] at h
    by_cases h1 : t.1 = thread_id
    · simp [h1] at h
    · simp only [h1, if_false] at h
      simp [List.cons_append, thread_find_cons, h1, ih h]

theorem thread_erase_sublist (threads : List (String × thread_t)) (thread_id : String) :
    (thread_erase threads thread_id).Sublist threads := by
  induction threads with
  | nil => exact List.Sublist.slnil
  | cons t rest ih =>
    unfold thread_erase
    split
    · exact List.sublist_cons_self t rest
    · exact List.Sublist.cons₂ t ih

theorem push_ids_nodup (host : Host) (e : engine_t) (future : Future) (args : Args)
    (hn : e.ids.Nodup) : (e.push host future args).ids.Nodup := by
  unfold engine_t.push
  simp only []
  split
  · simpa [engine_t.ids, thread_send_ids] using hn
  · rename_i hnone
    have hfind : thread_find e.m_threads "default" = none := by
      simpa using hnone
    split
    · exact hn
    · split
      · exact hn
      · simp only [engine_t.ids, thread_send_ids, thread_insert_absent _ _ _ hfind,
          List.map_append, List.map_cons, List.map_nil]
        rw [List.nodup_append]
        refine ⟨hn, List.nodup_singleton _, ?_⟩
        intro a ha hb
        simp only [List.mem_singleton] at hb
        subst hb
        exact (thread_find_eq_none_iff _ _).mp hfind ha

theorem drop_ids (e : engine_t) (future : Future) (args : Args) :
    (e.drop future args).ids = e.ids := by
  unfold engine_t.drop
  simp only []
  split
  · rfl
  · simp [engine_t.ids, thread_send_ids]

theorem kill_ids_nodup (e : engine_t) (thread_id : String) (hn : e.ids.Nodup) :
    (e.kill thread_id).ids.Nodup := by
  unfold engine_t.kill
  split
  · exact hn
  · exact List.Nodup.sublist ((thread_erase_sublist _ _).map Prod.fst) hn

theorem call_ids_nodup (host : Host) (e : engine_t) (call : EngineCall) (hn : e.ids.Nodup) :
    (e.call host call).ids.Nodup := by
  cases call with
  | push future args => exact push_ids_nodup host e future args hn
  | drop future args => simpa [engine_t.call, drop_ids] using hn
  | kill thread_id => exact kill_ids_nodup e thread_id hn

/-- After any sequence of calls the thread table holds no id twice. -/
theorem run_ids_nodup (host : Host) (calls : List EngineCall) :
    ∀ e : engine_t, e.ids.Nodup → (e.run host calls).ids.Nodup := by
  induction calls with
  | nil => intro e hn; exact hn
  | cons call rest ih =>
    intro e hn
    exact ih (e.call host call) (call_ids_nodup host e call hn)

/-! ## C14 -/

/-- C14: on `push` with no thread under `default`, when the instantiation of the plugin or
the construction of the thread raises a runtime error, the future is fulfilled at once
with the error member holding the text of the exception, and the thread table is left as
it was: no message is sent and no thread is retained. -/
theorem push_reports_creation_failure (host : Host) (e : engine_t) (future : Future)
    (args : Args) (what : String)
    (hnone : thread_find e.m_threads "default" = none)
    (hfail : host.instantiate e.instantiations = .error what ∨
      (host.instantiate e.instantiations = .ok () ∧
        host.create_thread e.threads_created = .error what)) :
    (e.push host future args).fulfilled =
      e.fulfilled ++ [Fulfilment.mk future e.m_target [("error", what)]] ∧
    (e.push host future args).m_threads = e.m_threads := by
  unfold engine_t.push
  rcases hfail with h | ⟨h1, h2⟩
  · simp [hnone, h]
  · simp [hnone, h1, h2]

/-- Witness of C14: a push on a fresh engine whose registry raises, and one on a host that is
out of threads. -/
theorem push_reports_creation_failure_witness :
    (thread_find (engine_t.init "plugin://sample").m_threads "default" = none ∧
     failing_host.instantiate (engine_t.init "plugin://sample").instantiations
       = .error "no such plugin" ∧
     exhausted_host.instantiate (engine_t.init "plugin://sample").instantiations = .ok () ∧
     exhausted_host.create_thread (engine_t.init "plugin://sample").threads_created
       = .error "system thread limit exceeded") ∧
    ((engine_t.init "plugin://sample").push failing_host future_t1 {}).fulfilled =
      (engine_t.init "plugin://sample").fulfilled ++
        [Fulfilment.mk future_t1 (engine_t.init "plugin://sample").m_target
          [("error", "no such plugin")]] ∧
    ((engine_t.init "plugin://sample").push exhausted_host future_t1 {}).m_threads =
      (engine_t.init "plugin://sample").m_threads :=
  ⟨⟨rfl, rfl, rfl, rfl⟩,
   (push_reports_creation_failure failing_host (engine_t.init "plugin://sample") future_t1 {}
      "no such plugin" rfl (Or.inl rfl)).1,
   (push_reports_creation_failure exhausted_host (engine_t.init "plugin://sample") future_t1 {}
      "system thread limit exceeded" rfl (Or.inr ⟨rfl, rfl⟩)).2⟩

/-! ## C15 -/

theorem push_existing (host : Host) (e : engine_t) (future : Future) (args : Args)
    (h : (thread_find e.m_threads "default").isSome = true) :
    e.push host future args =
      engine_t.mk e.m_target
        (thread_send e.m_threads "default"
          (Message.mk (args.type.getD "simple") (some future) args))
        e.fulfilled e.instantiations e.threads_created := by
  simp [engine_t.push, h]

/-- What a push does to the table when it does not fulfil the future itself. -/
theorem push_success (host : Host) (e : engine_t) (future : Future) (args : Args)
    (hs : (e.push host future args).fulfilled = e.fulfilled) :
    thread_find (e.push host future args).m_threads "default" =
      some (thread_t.mk (((thread_find e.m_threads "default").map thread_t.m_pipe).getD []
        ++ [Message.mk (args.type.getD "simple") (some future) args])) := by
  cases hf : thread_find e.m_threads "default" with
  | some t =>
    rw [push_existing host e future args (by simp [hf])]
    simp [thread_find_send, hf]
  | none =>
    unfold engine_t.push at hs ⊢
    simp only [hf, Option.isSome_none, Bool.false_eq_true, if_false] at hs ⊢
    cases hi : host.instantiate e.instantiations with
    | error what => simp [hi] at hs
    | ok u =>
      cases hc : host.create_thread e.threads_created with
      | error what => simp [hi, hc] at hs
      | ok v =>
        simp only [thread_find_send, thread_insert_absent _ _ _ hf,
          thread_find_append_absent _ _ _ hf]
        simp

/-- C15: after any sequence of calls of the engine, a push instantiates the plugin and
constructs a thread only when no thread is registered under `default`; after a push that
does not fail the future, exactly one thread is registered under `default`, and the push
has sent that thread one message: the command is the `type` of the args, or `simple` when
absent, with the serialized future and the args. -/
theorem push_one_default_thread (host : Host) (target : String) (calls : List EngineCall)
    (future : Future) (args : Args) :
    ((thread_find ((engine_t.init target).run host calls).m_threads "default").isSome = true →
      (((engine_t.init target).run host calls).push host future args).instantiations =
        ((engine_t.init target).run host calls).instantiations ∧
      (((engine_t.init target).run host calls).push host future args).threads_created =
        ((engine_t.init target).run host calls).threads_created) ∧
    ((((engine_t.init target).run host calls).push host future args).fulfilled =
        ((engine_t.init target).run host calls).fulfilled →
      (((engine_t.init target).run host calls).push host future args).ids.count "default" = 1 ∧
      thread_find (((engine_t.init target).run host calls).push host future args).m_threads
          "default" =
        some (thread_t.mk
          (((thread_find ((engine_t.init target).run host calls).m_threads "default").map
              thread_t.m_pipe).getD []
            ++ [Message.mk (args.type.getD "simple") (some future) args]))) := by
  have hn : ((engine_t.init target).run host calls).ids.Nodup :=
    run_ids_nodup host calls _ (by simp [engine_t.init, engine_t.ids])
  refine ⟨?_, ?_⟩
  · intro h
    rw [push_existing host _ future args h]
    exact ⟨rfl, rfl⟩
  · intro hs
    have hfind := push_success host _ future args hs
    refine ⟨?_, hfind⟩
    apply List.count_eq_one_of_mem (push_ids_nodup host _ future args hn)
    by_contra hmem
    have := (thread_find_eq_none_iff _ _).mpr hmem
    rw [hfind] at this
    cases this

/-- Witness of C15: a second push on an engine that has pushed once: nothing is instantiated
and the thread under `default` has received a second message. -/
theorem push_one_default_thread_witness :
    ((thread_find ((engine_t.init "plugin://sample").run sample_host
        [.push future_t1 {}]).m_threads "default").isSome = true ∧
     (((engine_t.init "plugin://sample").run sample_host [.push future_t1 {}]).push
        sample_host future_t1 { type := some "auto" }).fulfilled =
      ((engine_t.init "plugin://sample").run sample_host [.push future_t1 {}]).fulfilled) ∧
    (((engine_t.init "plugin://sample").run sample_host [.push future_t1 {}]).push
        sample_host future_t1 { type := some "auto" }).instantiations =
      ((engine_t.init "plugin://sample").run sample_host [.push future_t1 {}]).instantiations ∧
    (((engine_t.init "plugin://sample").run sample_host [.push future_t1 {}]).push
        sample_host future_t1 { type := some "auto" }).ids.count "default" = 1 :=
  ⟨by decide,
   ((push_one_default_thread sample_host "plugin://sample" [.push future_t1 {}] future_t1
      { type := some "auto" }).1 (by decide)).1,
   ((push_one_default_thread sample_host "plugin://sample" [.push future_t1 {}] future_t1
      { type := some "auto" }).2 (by decide)).1⟩

/-! ## C16 -/

/-- C16: `drop` fulfils the future with the error `not found` exactly when no thread is
registered under `default`; in that case the thread table is left as it was (nothing is
sent, no thread is created) and nothing is instantiated. Otherwise the future is not
fulfilled by the engine and the thread under `default` is sent exactly one message, the
command `stop` with the serialized future and the args; the other threads are sent
nothing. -/
theorem drop_not_found_iff (e : engine_t) (future : Future) (args : Args) :
    ((e.drop future args).fulfilled =
        e.fulfilled ++ [Fulfilment.mk future e.m_target [("error", "not found")]]
      ↔ thread_find e.m_threads "default" = none) ∧
    (thread_find e.m_threads "default" = none →
      (e.drop future args).m_threads = e.m_threads ∧
      (e.drop future args).instantiations = e.instantiations ∧
      (e.drop future args).threads_created = e.threads_created) ∧
    (∀ thread, thread_find e.m_threads "default" = some thread →
      (e.drop future args).fulfilled = e.fulfilled ∧
      (e.drop future args).ids = e.ids ∧
      thread_find (e.drop future args).m_threads "default" =
        some (thread_t.mk (thread.m_pipe ++ [Message.mk "stop" (some future) args])) ∧
      ∀ other, other ≠ "default" →
        thread_find (e.drop future args).m_threads other = thread_find e.m_threads other) := by
  cases hf : thread_find e.m_threads "default" with
  | none =>
    simp [engine_t.drop, hf]
  | some t =>
    refine ⟨?_, ?_, ?_⟩
    · simp [engine_t.drop, hf]
    · intro h; cases h
    · intro thread ht
      cases ht
      refine ⟨by simp [engine_t.drop, hf], drop_ids e future args, ?_, ?_⟩
      · simp [engine_t.drop, hf, thread_find_send]
      · intro other hne
        simp [engine_t.drop, hf, thread_find_send_other _ _ _ _ hne]

/-- Witness of C16: a drop on a fresh engine, and a drop on an engine that has pushed
once. -/
theorem drop_not_found_iff_witness :
    (thread_find (engine_t.init "plugin://sample").m_threads "default" = none ∧
     thread_find ((engine_t.init "plugin://sample").run sample_host
        [.push future_t1 {}]).m_threads "default" =
       some (thread_t.mk [Message.mk "simple" (some future_t1) {}])) ∧
    ((engine_t.init "plugin://sample").drop future_t1 {}).m_threads =
      (engine_t.init "plugin://sample").m_threads ∧
    thread_find (((engine_t.init "plugin://sample").run sample_host
        [.push future_t1 {}]).drop future_t1 {}).m_threads "default" =
      some (thread_t.mk ((thread_t.mk [Message.mk "simple" (some future_t1) {}]).m_pipe
        ++ [Message.mk "stop" (some future_t1) {}])) :=
  ⟨by decide,
   ((drop_not_found_iff (engine_t.init "plugin://sample") future_t1 {}).2.1 (by decide)).1,
   ((drop_not_found_iff ((engine_t.init "plugin://sample").run sample_host
      [.push future_t1 {}]) future_t1 {}).2.2 _ (by decide)).2.2.1⟩

/-! ## C17 -/

theorem control_event_terminate (env : Env) (source : source_t) (s : overseer_t)
    (message : Message) (rest : List Message) (h : message.command = "terminate") :
    s.control_event env source (message :: rest) = s.terminate := by
  have h1 : ¬ message.command = "auto" := by rw [h]; decide
  have h2 : ¬ message.command = "manual" := by rw [h]; decide
  have h3 : ¬ message.command = "once" := by rw [h]; decide
  have h4 : ¬ message.command = "stop" := by rw [h]; decide
  simp [overseer_t.control_event, h1, h2, h3, h4, h]

theorem control_event_append_terminate (env : Env) (source : source_t) (pre : List Message)
    (message : Message) (rest : List Message)
    (hpre : ∀ m ∈ pre, m.command ≠ "terminate") (h : message.command = "terminate") :
    ∀ s : overseer_t, s.control_event env source (pre ++ message :: rest) =
      (s.control_event env source pre).terminate := by
  induction pre with
  | nil =>
    intro s
    exact control_event_terminate env source s message rest h
  | cons m pre ih =>
    intro s
    have hm : ¬ m.command = "terminate" := hpre m (List.mem_cons_self _ _)
    have ih2 := ih (fun x hx => hpre x (List.mem_cons_of_mem _ hx))
    simp only [List.cons_append, overseer_t.control_event, hm, if_false]
    split_ifs <;> exact ih2 _

/-- C18: when the overseer comes to a `terminate` message in a batch, it leaves the state it
has reached with the scheduler table emptied and the idle timer, the control-socket watcher
and the cache-cleanup watcher stopped; no reply is sent for the message, and the messages
queued behind it in the batch are not processed: the outcome does not depend on them. -/
theorem terminate_stops_everything (env : Env) (source : source_t) (s : overseer_t)
    (pre : List Message) (message : Message) (rest : List Message)
    (hpre : ∀ m ∈ pre, m.command ≠ "terminate") (h : message.command = "terminate") :
    s.control_event env source (pre ++ message :: rest) =
      (s.control_event env source pre).terminate ∧
    (s.control_event env source (pre ++ message :: rest)).m_slaves = [] ∧
    (s.control_event env source (pre ++ message :: rest)).m_suicide = none ∧
    (s.control_event env source (pre ++ message :: rest)).m_io = false ∧
    (s.control_event env source (pre ++ message :: rest)).m_cleanup = false ∧
    (s.control_event env source (pre ++ message :: rest)).m_futures =
      (s.control_event env source pre).m_futures := by
  rw [control_event_append_terminate env source pre message rest hpre h s]
  exact ⟨rfl, rfl, rfl, rfl, rfl, rfl⟩

/-- Witness of C18: the batch `auto`, `terminate`, `auto`: the second `auto` request gets no
reply. -/
theorem terminate_stops_everything_witness :
    ((∀ m ∈ [auto_t1], m.command ≠ "terminate") ∧ terminate_message.command = "terminate") ∧
    ((overseer_t.init ⟨[]⟩).control_event sample_env sample_source
        ([auto_t1] ++ terminate_message :: [auto_t2])).m_slaves = [] ∧
    ((overseer_t.init ⟨[]⟩).control_event sample_env sample_source
        ([auto_t1] ++ terminate_message :: [auto_t2])).m_futures =
      ((overseer_t.init ⟨[]⟩).control_event sample_env sample_source [auto_t1]).m_futures :=
  ⟨by decide,
   (terminate_stops_everything sample_env sample_source (overseer_t.init ⟨[]⟩) [auto_t1]
      terminate_message [auto_t2] (by decide) (by decide)).2.1,
   (terminate_stops_everything sample_env sample_source (overseer_t.init ⟨[]⟩) [auto_t1]
      terminate_message [auto_t2] (by decide) (by decide)).2.2.2.2.2⟩

/-! ## Invariants of the control loop -/

/-- A property that `schedule` and `once` keep is kept by every batch without `terminate`. -/
theorem control_event_preserves (env : Env) (source : source_t) (P : overseer_t → Prop)
    (hschedule : ∀ s type message, P s → P (s.schedule env source type message))
    (honce : ∀ s message, P s → P (s.once source message))
    (pending : List Message) (hp : ∀ m ∈ pending, m.command ≠ "terminate") :
    ∀ s : overseer_t, P s → P (s.control_event env source pending) := by
  induction pending with
  | nil => intro s h; exact h
  | cons m rest ih =>
    intro s h
    have hm : ¬ m.command = "terminate" := hp m (List.mem_cons_self _ _)
    have ih2 := ih (fun x hx => hp x (List.mem_cons_of_mem _ hx))
    simp only [overseer_t.control_event, hm, if_false]
    split_ifs
    · exact ih2 _ (hschedule s _ m h)
    · exact ih2 _ (hschedule s _ m h)
    · exact ih2 _ (honce s m h)
    · exact ih2 _ h
    · exact ih2 _ h

/-- Batches without `terminate` compose: handling one after the other is handling their
concatenation, so the states reached by any number of such batches are those reached by
one. -/
theorem control_event_append (env : Env) (source : source_t) (first second : List Message)
    (hp : ∀ m ∈ first, m.command ≠ "terminate") :
    ∀ s : overseer_t, s.control_event env source (first ++ second) =
      (s.control_event env source first).control_event env source second := by
  induction first with
  | nil => intro s; rfl
  | cons m rest ih =>
    intro s
    have hm : ¬ m.command = "terminate" := hp m (List.mem_cons_self _ _)
    have ih2 := ih (fun x hx => hp x (List.mem_cons_of_mem _ hx))
    simp only [List.cons_append, overseer_t.control_event, hm, if_false]
    split_ifs <;> exact ih2 _

theorem fetch_m_slaves (source : source_t) (s : overseer_t) :
    (s.fetch source).2.m_slaves = s.m_slaves := by
  unfold overseer_t.fetch
  split
  · rfl
  · split <;> rfl

theorem fetch_m_suicide (source : source_t) (s : overseer_t) :
    (s.fetch source).2.m_suicide = s.m_suicide := by
  unfold overseer_t.fetch
  split
  · rfl
  · split <;> rfl

theorem once_m_slaves (source : source_t) (s : overseer_t) (message : Message) :
    (s.once source message).m_slaves = s.m_slaves := by
  unfold overseer_t.once
  simp only []
  split <;> simp [fetch_m_slaves]

theorem once_m_suicide (source : source_t) (s : overseer_t) (message : Message) :
    (s.once source message).m_suicide =
      if s.m_suicide.isSome = true then some 600 else s.m_suicide := by
  unfold overseer_t.once
  simp only [respond_m_suicide, fetch_m_suicide]
  split <;> simp [fetch_m_suicide]

theorem schedule_m_suicide (env : Env) (source : source_t) (s : overseer_t)
    (type : SchedulerType) (message : Message) (scheduler : scheduler_base_t)
    (h : type.construct env source message.args = .ok scheduler) :
    (s.schedule env source type message).m_suicide =
      if scheduler.m_key ∈ s.keys then s.m_suicide else none := by
  rw [schedule_ok env source s type message scheduler h]
  by_cases hk : scheduler.m_key ∈ s.keys
  · simp [schedule_insert_present s scheduler hk, hk]
  · simp [schedule_insert_absent s scheduler hk, hk]

/-! ## C19 -/

theorem schedule_subscriptions_refer (env : Env) (source : source_t) (s : overseer_t)
    (type : SchedulerType) (message : Message)
    (h : ∀ p ∈ s.m_subscriptions, p.2 ∈ s.keys) :
    ∀ p ∈ (s.schedule env source type message).m_subscriptions,
      p.2 ∈ (s.schedule env source type message).keys := by
  cases hc : type.construct env source message.args with
  | throws what =>
    rw [schedule_throws env source s type message what hc]
    exact h
  | faults what =>
    rw [schedule_faults env source s type message what hc]
    exact h
  | ok scheduler =>
    intro p hp
    rw [schedule_m_subscriptions env source s type message scheduler hc] at hp
    have hkey : schedule_key env source type message = some scheduler.m_key := by
      simp [schedule_key, hc]
    split at hp
    · exact schedule_keys_mem env source s type message p.2 (Or.inl (h p hp))
    · rcases List.mem_append.mp hp with hp | hp
      · exact schedule_keys_mem env source s type message p.2 (Or.inl (h p hp))
      · simp only [List.mem_singleton] at hp
        subst hp
        exact schedule_keys_mem env source s type message _ (Or.inr hkey)

/-- C19 as stated fails: after the batch `auto`, `terminate` the subscription of the token
`t1` refers to the key `auto:H@1`, and the scheduler table is empty. -/
theorem terminate_keeps_subscriptions :
    ((overseer_t.init ⟨[]⟩).control_event sample_env sample_source
        [auto_t1, terminate_message]).m_subscriptions = [("t1", "auto:H@1")] ∧
    ((overseer_t.init ⟨[]⟩).control_event sample_env sample_source
        [auto_t1, terminate_message]).keys = [] := by
  decide

/-- C19, amended: in every overseer state reached from construction by control messages
other than `terminate` (auto, manual, once, stop and commands the overseer does not know),
each entry (token, K) of the subscription multimap refers to a key K that is in the
scheduler table; `terminate` empties the table and leaves the multimap as it is. -/
theorem subscriptions_refer_to_table (env : Env) (source : source_t) (storage : storage_t)
    (pending : List Message) (hp : ∀ m ∈ pending, m.command ≠ "terminate") :
    (∀ p ∈ ((overseer_t.init storage).control_event env source pending).m_subscriptions,
      p.2 ∈ ((overseer_t.init storage).control_event env source pending).keys) ∧
    (∀ s : overseer_t, s.terminate.keys = [] ∧
      s.terminate.m_subscriptions = s.m_subscriptions) := by
  refine ⟨?_, fun s => ⟨rfl, rfl⟩⟩
  apply control_event_preserves env source
    (fun s => ∀ p ∈ s.m_subscriptions, p.2 ∈ s.keys) ?_ ?_ pending hp
  · intro p hp
    simp [overseer_t.init] at hp
  · intro s type message h
    exact schedule_subscriptions_refer env source s type message h
  · intro s message h p hp
    rw [once_m_subscriptions] at hp
    simpa [overseer_t.keys, once_m_slaves] using h p hp

/-- Witness of C19, amended: the batch `auto`, `once`, `stop`. -/
theorem subscriptions_refer_to_table_witness :
    (∀ m ∈ [auto_t1, once_t1, stop_t1], m.command ≠ "terminate") ∧
    (∀ p ∈ ((overseer_t.init ⟨[]⟩).control_event sample_env sample_source
        [auto_t1, once_t1, stop_t1]).m_subscriptions,
      p.2 ∈ ((overseer_t.init ⟨[]⟩).control_event sample_env sample_source
        [auto_t1, once_t1, stop_t1]).keys) :=
  ⟨by decide,
   (subscriptions_refer_to_table sample_env sample_source ⟨[]⟩ [auto_t1, once_t1, stop_t1]
      (by decide)).1⟩

/-! ## C20 -/

theorem schedule_timer_inv (env : Env) (source : source_t) (s : overseer_t)
    (type : SchedulerType) (message : Message)
    (h : (s.m_suicide.isSome = true ↔ s.keys = []) ∧
      (s.m_suicide.isSome = true → s.m_suicide = some 600)) :
    ((s.schedule env source type message).m_suicide.isSome = true ↔
        (s.schedule env source type message).keys = []) ∧
      ((s.schedule env source type message).m_suicide.isSome = true →
        (s.schedule env source type message).m_suicide = some 600) := by
  cases hc : type.construct env source message.args with
  | throws what =>
    rw [schedule_throws env source s type message what hc]
    exact h
  | faults what =>
    rw [schedule_faults env source s type message what hc]
    exact h
  | ok scheduler =>
    have hs := schedule_m_slaves env source s type message scheduler hc
    have ht := schedule_m_suicide env source s type message scheduler hc
    by_cases hk : scheduler.m_key ∈ s.keys
    · simp only [hk, if_true] at hs ht
      simp only [overseer_t.keys, hs, ht]
      exact h
    · simp only [hk, if_false] at hs ht
      simp [overseer_t.keys, hs, ht]

theorem once_timer_inv (source : source_t) (s : overseer_t) (message : Message)
    (h : (s.m_suicide.isSome = true ↔ s.keys = []) ∧
      (s.m_suicide.isSome = true → s.m_suicide = some 600)) :
    ((s.once source message).m_suicide.isSome = true ↔ (s.once source message).keys = []) ∧
      ((s.once source message).m_suicide.isSome = true →
        (s.once source message).m_suicide = some 600) := by
  have hk : (s.once source message).keys = s.keys := by
    simp [overseer_t.keys, once_m_slaves]
  rw [hk, once_m_suicide]
  by_cases ha : s.m_suicide.isSome = true
  · simp only [ha, if_true, Option.isSome_some, true_iff, forall_const]
    exact ⟨h.1.mp ha, trivial⟩
  · simp only [ha, if_false]
    exact h

/-- A stopped idle timer is not armed again by any batch of control messages. -/
theorem control_event_timer_stays_stopped (env : Env) (source : source_t)
    (pending : List Message) :
    ∀ s : overseer_t, s.m_suicide = none →
      (s.control_event env source pending).m_suicide = none := by
  have hsched : ∀ (s : overseer_t) (type : SchedulerType) (message : Message),
      s.m_suicide = none → (s.schedule env source type message).m_suicide = none := by
    intro s type message h
    cases hc : type.construct env source message.args with
    | throws what => rw [schedule_throws env source s type message what hc]; exact h
    | faults what => rw [schedule_faults env source s type message what hc]; exact h
    | ok scheduler =>
      rw [schedule_m_suicide env source s type message scheduler hc]
      split
      · exact h
      · rfl
  have honce : ∀ (s : overseer_t) (message : Message),
      s.m_suicide = none → (s.once source message).m_suicide = none := by
    intro s message h
    rw [once_m_suicide, h]
    rfl
  induction pending with
  | nil => intro s h; exact h
  | cons m rest ih =>
    intro s h
    unfold overseer_t.control_event
    split_ifs
    · exact ih _ (hsched s _ m h)
    · exact ih _ (hsched s _ m h)
    · exact ih _ (honce s m h)
    · exact ih _ h
    · rfl
    · exact ih _ h

/-- C20 as stated fails: after a `terminate` message the scheduler table is empty and the
idle timer is not armed. -/
theorem terminate_leaves_timer_stopped :
    ((overseer_t.init ⟨[]⟩).control_event sample_env sample_source
        [terminate_message]).keys = [] ∧
    ((overseer_t.init ⟨[]⟩).control_event sample_env sample_source
        [terminate_message]).m_suicide = none := by
  decide

/-- C20, amended: the idle timer is armed at construction with 600 s. In every overseer
state reached from construction by control messages other than `terminate`, it is armed
exactly when the scheduler table is empty, and then with 600 s; a schedule that inserts a
scheduler stops it. `terminate` empties the table and stops the timer, and no control
message arms a stopped timer again. -/
theorem idle_timer_armed_iff_table_empty (env : Env) (source : source_t)
    (storage : storage_t) (pending : List Message)
    (hp : ∀ m ∈ pending, m.command ≠ "terminate") :
    (overseer_t.init storage).m_suicide = some 600 ∧
    ((((overseer_t.init storage).control_event env source pending).m_suicide.isSome = true ↔
        ((overseer_t.init storage).control_event env source pending).keys = []) ∧
      (((overseer_t.init storage).control_event env source pending).m_suicide.isSome = true →
        ((overseer_t.init storage).control_event env source pending).m_suicide = some 600)) ∧
    (∀ (s : overseer_t) (type : SchedulerType) (message : Message) (key : String),
      schedule_key env source type message = some key → key ∉ s.keys →
        (s.schedule env source type message).m_suicide = none) ∧
    (∀ s : overseer_t, s.terminate.keys = [] ∧ s.terminate.m_suicide = none) ∧
    (∀ (s : overseer_t) (batch : List Message), s.m_suicide = none →
      (s.control_event env source batch).m_suicide = none) := by
  refine ⟨rfl, ?_, ?_, fun s => ⟨rfl, rfl⟩,
    fun s batch h => control_event_timer_stays_stopped env source batch s h⟩
  · apply control_event_preserves env source
      (fun s => (s.m_suicide.isSome = true ↔ s.keys = []) ∧
        (s.m_suicide.isSome = true → s.m_suicide = some 600)) ?_ ?_ pending hp
    · simp [overseer_t.init, overseer_t.keys]
    · intro s type message h
      exact schedule_timer_inv env source s type message h
    · intro s message h
      exact once_timer_inv source s message h
  · intro s type message key hkey hk
    obtain ⟨scheduler, hc, rfl⟩ := (schedule_key_eq_some env source type message key).mp hkey
    rw [schedule_m_suicide env source s type message scheduler hc, if_neg hk]

/-- Witness of C20, amended: after the batch `once`, `auto` the table is not empty and the
timer is stopped; before it the table is empty and the timer is armed. -/
theorem idle_timer_armed_iff_table_empty_witness :
    (∀ m ∈ [once_t1, auto_t1], m.command ≠ "terminate") ∧
    (((overseer_t.init ⟨[]⟩).control_event sample_env sample_source
        [once_t1, auto_t1]).m_suicide.isSome = true ↔
      ((overseer_t.init ⟨[]⟩).control_event sample_env sample_source
        [once_t1, auto_t1]).keys = []) :=
  ⟨by decide,
   (idle_timer_armed_iff_table_empty sample_env sample_source ⟨[]⟩ [once_t1, auto_t1]
      (by decide)).2.1.1⟩

/-! ## C21 -/

/-- C21 as stated fails: when the idle timer of a fresh overseer expires, one reaper message
is sent, but the control-socket and the cleanup watchers stay active, and an `auto` request
that arrives afterwards is processed and answered. -/
theorem timer_expiry_stops_no_watcher :
    ((overseer_t.init ⟨[]⟩).loop_timer sample_source).m_reaper
      = [ReaperMessage.mk "plugin://sample" "default"] ∧
    ((overseer_t.init ⟨[]⟩).loop_timer sample_source).m_io = true ∧
    ((overseer_t.init ⟨[]⟩).loop_timer sample_source).m_cleanup = true ∧
    (((overseer_t.init ⟨[]⟩).loop_timer sample_source).loop_control sample_env sample_source
        [auto_t1]).m_futures = [Reply.mk (some (Future.mk "t1")) [("key", "auto:H@1")]] ∧
    (((overseer_t.init ⟨[]⟩).loop_timer sample_source).loop_control sample_env sample_source
        [auto_t1]).keys = ["auto:H@1"] := by
  decide

/-- C21, amended: when the idle timer expires, the overseer sends exactly one reaper message,
with the uri of the plugin as engine and `default` as thread, and does nothing else: the
timer is inactive after its expiry and does not expire again, while the control-socket
watcher, the cleanup watcher, the scheduler table, the subscriptions and the replies are
as before; with the control-socket watcher active, control messages that arrive afterwards
are handled as usual. -/
theorem timer_expiry_sends_one_reaper_message (env : Env) (source : source_t)
    (s : overseer_t) (timeout : Nat) (h : s.m_suicide = some timeout) :
    (s.loop_timer source).m_reaper =
      s.m_reaper ++ [ReaperMessage.mk source.uri "default"] ∧
    (s.loop_timer source).m_suicide = none ∧
    (s.loop_timer source).loop_timer source = s.loop_timer source ∧
    (s.loop_timer source).m_io = s.m_io ∧
    (s.loop_timer source).m_cleanup = s.m_cleanup ∧
    (s.loop_timer source).m_slaves = s.m_slaves ∧
    (s.loop_timer source).m_subscriptions = s.m_subscriptions ∧
    (s.loop_timer source).m_futures = s.m_futures ∧
    (s.m_io = true → ∀ pending,
      (s.loop_timer source).loop_control env source pending =
        (s.loop_timer source).control_event env source pending) := by
  have hs : s.loop_timer source =
      overseer_t.timer_event source { s with m_suicide := none } := by
    simp [overseer_t.loop_timer, h]
  rw [hs]
  refine ⟨rfl, rfl, ?_, rfl, rfl, rfl, rfl, rfl, ?_⟩
  · simp [overseer_t.loop_timer, overseer_t.timer_event, overseer_t.suicide]
  · intro hio pending
    simp [overseer_t.loop_control, overseer_t.timer_event, overseer_t.suicide, hio]

/-- Witness of C21, amended: the expiry of the timer of a fresh overseer. -/
theorem timer_expiry_sends_one_reaper_message_witness :
    ((overseer_t.init ⟨[]⟩).m_suicide = some 600 ∧ (overseer_t.init ⟨[]⟩).m_io = true) ∧
    ((overseer_t.init ⟨[]⟩).loop_timer sample_source).m_reaper =
      (overseer_t.init ⟨[]⟩).m_reaper ++ [ReaperMessage.mk sample_source.uri "default"] ∧
    (((overseer_t.init ⟨[]⟩).loop_timer sample_source).loop_control sample_env sample_source
        [auto_t1] =
      ((overseer_t.init ⟨[]⟩).loop_timer sample_source).control_event sample_env
        sample_source [auto_t1]) :=
  ⟨⟨rfl, rfl⟩,
   (timer_expiry_sends_one_reaper_message sample_env sample_source (overseer_t.init ⟨[]⟩)
      600 rfl).1,
   (timer_expiry_sends_one_reaper_message sample_env sample_source (overseer_t.init ⟨[]⟩)
      600 rfl).2.2.2.2.2.2.2.2 rfl [auto_t1]⟩

/-! ## C22 -/

/-- C22: whenever the plugin's fetch raises inside the overseer's `fetch()`, one reaper
message is sent, with the uri of the plugin as engine and `default` as thread; when the
plugin's fetch returns a mapping, and when the plugin is not called because a mapping is
cached, `fetch()` sends no reaper message. -/
theorem fetch_failure_sends_reaper_message (source : source_t) (s : overseer_t) :
    (∀ what, s.m_cached = false → source.fetch s.fetches = .error what →
      (s.fetch source).2.m_reaper =
        s.m_reaper ++ [ReaperMessage.mk source.uri "default"]) ∧
    (∀ dict, s.m_cached = false → source.fetch s.fetches = .ok dict →
      (s.fetch source).2.m_reaper = s.m_reaper) ∧
    (s.m_cached = true → (s.fetch source).2.m_reaper = s.m_reaper) := by
  refine ⟨fun what h hf => fetch_m_reaper_error source s what h hf, ?_, ?_⟩
  · intro dict h hf
    rw [fetch_ok source s dict h hf]
  · intro h
    rw [fetch_cached source s h]

/-- Witness of C22: the first fetch on a fresh overseer, with the plugin whose first fetch
raises and with the sample plugin. -/
theorem fetch_failure_sends_reaper_message_witness :
    ((overseer_t.init ⟨[]⟩).m_cached = false ∧
     flaky_source.fetch (overseer_t.init ⟨[]⟩).fetches = .error "boom" ∧
     sample_source.fetch (overseer_t.init ⟨[]⟩).fetches = .ok [("k", "v")]) ∧
    ((overseer_t.init ⟨[]⟩).fetch flaky_source).2.m_reaper =
      (overseer_t.init ⟨[]⟩).m_reaper ++ [ReaperMessage.mk flaky_source.uri "default"] ∧
    ((overseer_t.init ⟨[]⟩).fetch sample_source).2.m_reaper = (overseer_t.init ⟨[]⟩).m_reaper :=
  ⟨⟨rfl, rfl, rfl⟩,
   (fetch_failure_sends_reaper_message flaky_source (overseer_t.init ⟨[]⟩)).1 "boom" rfl rfl,
   (fetch_failure_sends_reaper_message sample_source (overseer_t.init ⟨[]⟩)).2.1
     [("k", "v")] rfl rfl⟩

/-! ## C23 -/

theorem schedule_insert_cache (s : overseer_t) (scheduler : scheduler_base_t) :
    (s.schedule_insert scheduler).m_cache = s.m_cache ∧
    (s.schedule_insert scheduler).m_cached = s.m_cached := by
  unfold overseer_t.schedule_insert; split <;> exact ⟨rfl, rfl⟩

theorem subscribe_cache (s : overseer_t) (token key : String) :
    (s.subscribe token key).m_cache = s.m_cache ∧
    (s.subscribe token key).m_cached = s.m_cached := by
  unfold overseer_t.subscribe; split <;> exact ⟨rfl, rfl⟩

theorem persist_cache (env : Env) (source : source_t) (s : overseer_t) (message : Message)
    (key : String) :
    (s.persist env source message key).m_cache = s.m_cache ∧
    (s.persist env source message key).m_cached = s.m_cached := by
  simp only [overseer_t.persist]; split_ifs <;> exact ⟨rfl, rfl⟩

theorem schedule_cache (env : Env) (source : source_t) (s : overseer_t)
    (type : SchedulerType) (message : Message) :
    (s.schedule env source type message).m_cache = s.m_cache ∧
    (s.schedule env source type message).m_cached = s.m_cached := by
  cases hc : type.construct env source message.args with
  | throws what =>
    rw [schedule_throws env source s type message what hc]
    exact ⟨rfl, rfl⟩
  | faults what =>
    rw [schedule_faults env source s type message what hc]
    exact ⟨rfl, rfl⟩
  | ok scheduler =>
    rw [schedule_ok env source s type message scheduler hc]
    simp only [overseer_t.respond]
    rw [(persist_cache env source _ message scheduler.m_key).1,
      (persist_cache env source _ message scheduler.m_key).2,
      (subscribe_cache _ message.token scheduler.m_key).1,
      (subscribe_cache _ message.token scheduler.m_key).2,
      (schedule_insert_cache s scheduler).1, (schedule_insert_cache s scheduler).2]
    exact ⟨rfl, rfl⟩

/-- The overseer's `fetch()` keeps the cache empty while nothing is cached. -/
theorem fetch_cache_inv (source : source_t) (s : overseer_t)
    (h : s.m_cached = false → s.m_cache = []) :
    (s.fetch source).2.m_cached = false → (s.fetch source).2.m_cache = [] := by
  unfold overseer_t.fetch
  split
  · exact h
  · rename_i hc
    split
    · intro h2; cases h2
    · intro _
      exact h (by simpa using hc)

theorem once_cache (source : source_t) (s : overseer_t) (message : Message) :
    (s.once source message).m_cache = (s.fetch source).2.m_cache ∧
    (s.once source message).m_cached = (s.fetch source).2.m_cached := by
  unfold overseer_t.once
  simp only []
  split <;> exact ⟨rfl, rfl⟩

theorem control_event_cache_inv (env : Env) (source : source_t) (pending : List Message) :
    ∀ s : overseer_t, (s.m_cached = false → s.m_cache = []) →
      ((s.control_event env source pending).m_cached = false →
        (s.control_event env source pending).m_cache = []) := by
  have hsched : ∀ (s : overseer_t) (type : SchedulerType) (message : Message),
      (s.m_cached = false → s.m_cache = []) →
      ((s.schedule env source type message).m_cached = false →
        (s.schedule env source type message).m_cache = []) := by
    intro s type message h
    rw [(schedule_cache env source s type message).1,
      (schedule_cache env source s type message).2]
    exact h
  have honce : ∀ (s : overseer_t) (message : Message),
      (s.m_cached = false → s.m_cache = []) →
      ((s.once source message).m_cached = false → (s.once source message).m_cache = []) := by
    intro s message h
    rw [(once_cache source s message).1, (once_cache source s message).2]
    exact fetch_cache_inv source s h
  induction pending with
  | nil => intro s h; exact h
  | cons m rest ih =>
    intro s h
    unfold overseer_t.control_event
    split_ifs
    · exact ih _ (hsched s _ m h)
    · exact ih _ (hsched s _ m h)
    · exact ih _ (honce s m h)
    · exact ih _ h
    · exact h
    · exact ih _ h

theorem publish_state (pack : dict_t → String) (source : source_t)
    (scheduler : scheduler_base_t) (s : overseer_t) :
    (scheduler.publish pack source s).2 = (s.fetch source).2 := by
  unfold scheduler_base_t.publish
  split <;> rfl

theorem loop_event_cache_inv (env : Env) (pack : dict_t → String) (source : source_t)
    (s : overseer_t) (event : LoopEvent) (h : s.m_cached = false → s.m_cache = []) :
    (s.loop_event env pack source event).m_cached = false →
      (s.loop_event env pack source event).m_cache = [] := by
  cases event with
  | control pending =>
    simp only [overseer_t.loop_event, overseer_t.loop_control]
    split
    · exact control_event_cache_inv env source pending s h
    · exact h
  | timer =>
    simp only [overseer_t.loop_event, overseer_t.loop_timer]
    split
    · exact h
    · exact h
  | prepare =>
    simp only [overseer_t.loop_event, overseer_t.loop_prepare]
    split
    · intro _; rfl
    · exact h
  | trigger key =>
    simp only [overseer_t.loop_event, overseer_t.loop_trigger]
    split
    · split
      · rw [publish_state]
        exact fetch_cache_inv source s h
      · exact h
    · exact h

theorem loop_cache_inv (env : Env) (pack : dict_t → String) (source : source_t)
    (events : List LoopEvent) :
    ∀ s : overseer_t, (s.m_cached = false → s.m_cache = []) →
      ((s.loop env pack source events).m_cached = false →
        (s.loop env pack source events).m_cache = []) := by
  induction events with
  | nil => intro s h; exact h
  | cons event rest ih =>
    intro s h
    exact ih (s.loop_event env pack source event) (loop_event_cache_inv env pack source s event h)

/-- C23: in every state that the overseer reaches from construction through events of its
loop (batches of control messages, expiries of the idle timer, runs of the cleanup hook,
triggers of schedulers), the cached mapping is empty when the cached flag is false;
so a call of `fetch()` in which the plugin's fetch raises returns the empty mapping, and a
trigger of a scheduler that is served by such a call sends no frame. -/
theorem uncached_means_empty_cache (env : Env) (pack : dict_t → String) (source : source_t)
    (storage : storage_t) (events : List LoopEvent) :
    (((overseer_t.init storage).loop env pack source events).m_cached = false →
      ((overseer_t.init storage).loop env pack source events).m_cache = []) ∧
    (∀ what, ((overseer_t.init storage).loop env pack source events).m_cached = false →
      source.fetch ((overseer_t.init storage).loop env pack source events).fetches
        = .error what →
      (((overseer_t.init storage).loop env pack source events).fetch source).1 = [] ∧
      ∀ scheduler : scheduler_base_t,
        (scheduler.publish pack source
          ((overseer_t.init storage).loop env pack source events)).1 = []) := by
  have hinv := loop_cache_inv env pack source events (overseer_t.init storage) (fun _ => rfl)
  refine ⟨hinv, ?_⟩
  intro what hc hf
  have hfetch : (((overseer_t.init storage).loop env pack source events).fetch source).1
      = [] := by
    rw [fetch_error source _ what hc hf]
    exact hinv hc
  refine ⟨hfetch, ?_⟩
  intro scheduler
  unfold scheduler_base_t.publish
  rw [hfetch]
  rfl

/-- Witness of C23: after an `auto` request and a run of the cleanup hook, the plugin's next
fetch raises: `fetch()` returns the empty mapping. -/
theorem uncached_means_empty_cache_witness :
    (((overseer_t.init ⟨[]⟩).loop sample_env sample_pack flaky_source
        [.control [auto_t1], .prepare]).m_cached = false ∧
     flaky_source.fetch ((overseer_t.init ⟨[]⟩).loop sample_env sample_pack flaky_source
        [.control [auto_t1], .prepare]).fetches = .error "boom") ∧
    (((overseer_t.init ⟨[]⟩).loop sample_env sample_pack flaky_source
        [.control [auto_t1], .prepare]).fetch flaky_source).1 = [] :=
  ⟨⟨rfl, rfl⟩,
   ((uncached_means_empty_cache sample_env sample_pack flaky_source ⟨[]⟩
      [.control [auto_t1], .prepare]).2 "boom" rfl rfl).1⟩

/-! ## C24 -/

/-- For every shared range whose bounds differ, and so for every range with `min < max`, the
constructor fills the queue with 65535 ports 0: the branch that lists `min` to `max - 1` is
taken only when `min = max` and `min < max` hold together, that is never. -/
theorem port_mapping_init_zero_filled (pinned : List (String × port_t)) (min max : port_t)
    (h : min ≠ max) :
    (port_mapping_t.init pinned (min, max)).m_shared = List.replicate 65535 0 := by
  have hc : (if (min, max).1 = (min, max).2 then 1 else 0) = 0 ∨ (min, max).2 ≤ (min, max).1 :=
    Or.inl (if_neg h)
  unfold port_mapping_t.init
  rw [if_pos hc]

theorem port_mapping_init_never_iota (pinned : List (String × port_t)) (min max : port_t) :
    (port_mapping_t.init pinned (min, max)).m_shared = List.replicate 65535 0 := by
  by_cases h : min = max
  · have hc : (if (min, max).1 = (min, max).2 then 1 else 0) = 0 ∨
        (min, max).2 ≤ (min, max).1 := Or.inr (le_of_eq h.symm)
    unfold port_mapping_t.init
    rw [if_pos hc]
  · exact port_mapping_init_zero_filled pinned min max h

theorem queue_top_replicate_zero (n : Nat) :
    queue_top (List.replicate (n + 1) 0) = some 0 := by
  induction n with
  | zero => rfl
  | succ n ih =>
    rw [List.replicate_succ, queue_top, ih]
    rfl

theorem assign_zero_filled (pinned : List (String × port_t)) (n : Nat) (name : String)
    (h : (pinned.find? (fun e => e.1 = name)) = none) :
    ((port_mapping_t.mk pinned (List.replicate (n + 1) 0)).assign name).1 = .ok 0 := by
  simp [port_mapping_t.assign, h, queue_top_replicate_zero]

/-- C24, the code at the failing input: for the shared range (1024, 2048) and no pinned port
the pool of a freshly constructed port mapping is 65535 times the port 0, not the 1024
ports 1024 to 2047, and the first `assign` returns the port 0, which is below 1024. -/
theorem shared_pool_is_zero_filled :
    (0 < 1024 ∧ 1024 < 2048) ∧
    (port_mapping_t.init [] (1024, 2048)).m_shared = List.replicate 65535 0 ∧
    (port_mapping_t.init [] (1024, 2048)).m_shared ≠ List.range' 1024 (2048 - 1024) ∧
    ((port_mapping_t.init [] (1024, 2048)).assign "service").1 = .ok 0 ∧
    ¬ (1024 ≤ 0) := by
  have hpool := port_mapping_init_zero_filled [] 1024 2048 (by decide)
  refine ⟨by decide, hpool, ?_, ?_, by decide⟩
  · rw [hpool]
    intro h
    have hlen := congrArg List.length h
    rw [List.length_replicate, List.length_range'] at hlen
    exact absurd hlen (by decide)
  · have hc : (if ((1024, 2048) : port_t × port_t).1 = ((1024, 2048) : port_t × port_t).2
        then 1 else 0) = 0 ∨
        ((1024, 2048) : port_t × port_t).2 ≤ ((1024, 2048) : port_t × port_t).1 :=
      Or.inl (if_neg (by decide))
    have h2 : port_mapping_t.init [] (1024, 2048) =
        port_mapping_t.mk [] (List.replicate (65534 + 1) 0) := by
      unfold port_mapping_t.init
      rw [if_pos hc]
    rw [h2]
    exact assign_zero_filled [] 65534 "service" rfl

/-! ## C25 -/

/-- What `auth_t::verify` does: it returns without raising exactly when the username has a
loaded key and the check returned something other than 0. -/
theorem verify_returns_iff (check : Nat → String → String → Int) (auth : auth_t)
    (message signature username : String) :
    auth.verify check message signature username = .ok () ↔
      ∃ key, (auth.m_keys.find? (fun e => e.1 = username)).map Prod.snd = some key ∧
        check key message signature ≠ 0 := by
  unfold auth_t.verify
  cases hk : (auth.m_keys.find? (fun e => e.1 = username)).map Prod.snd with
  | none => simp
  | some key =>
    by_cases hc : check key message signature = 0
    · simp [hc]
    · simp [hc]

/-- C25, the code at the failing input: for the user `alice`, whose key is loaded, and a
check that returns -1, an error of the library, `verify` returns without raising; it does
raise for an unknown user and for a check that returns 0. -/
theorem verify_accepts_library_error :
    sample_auth.verify (fun _ _ _ => -1) "message" "signature" "alice" = .ok () ∧
    sample_auth.verify (fun _ _ _ => 0) "message" "signature" "alice"
      = .error "invalid signature" ∧
    sample_auth.verify (fun _ _ _ => 1) "message" "signature" "alice" = .ok () ∧
    sample_auth.verify (fun _ _ _ => 1) "message" "signature" "mallory"
      = .error "unauthorized user" :=
  ⟨rfl, rfl, rfl, rfl⟩

/-! ## C27 -/

theorem end_array_loop_takes (items : List dynamic_t) :
    ∀ (array stack : List dynamic_t),
      end_array_loop items.length array (items ++ stack) = some (items.reverse ++ array, stack) := by
  induction items with
  | nil => intro array stack; rfl
  | cons v rest ih =>
    intro array stack
    show end_array_loop (rest.length + 1) array (v :: (rest ++ stack)) = _
    rw [end_array_loop, ih]
    simp

theorem object_assign_fresh (object : List (String × dynamic_t)) (key : String)
    (value : dynamic_t) (h : key ∉ object.map Prod.fst) :
    object_assign object key value = (key, value) :: object := by
  unfold object_assign
  have hany : object.any (fun e => e.1 = key) = false := by
    rw [List.any_eq_false]
    intro e he hk
    simp only [decide_eq_true_eq] at hk
    exact h (List.mem_map.mpr ⟨e, he, hk⟩)
  rw [hany]
  rfl

theorem end_object_loop_takes (members : List (String × dynamic_t)) :
    ∀ (object : List (String × dynamic_t)) (stack : List dynamic_t),
      (members.map Prod.fst).Nodup →
      (∀ key ∈ members.map Prod.fst, key ∉ object.map Prod.fst) →
      end_object_loop members.length object (member_stack members ++ stack)
        = some (members.reverse ++ object, stack) := by
  induction members with
  | nil => intro object stack _ _; rfl
  | cons m rest ih =>
    intro object stack hn hd
    obtain ⟨key, v⟩ := m
    rw [List.map_cons, List.nodup_cons] at hn
    have hfresh : key ∉ object.map Prod.fst := hd key (by simp)
    show end_object_loop (rest.length + 1) object
      (v :: dynamic_t.string key :: (member_stack rest ++ stack)) = _
    rw [end_object_loop, object_assign_fresh object key v hfresh,
      ih ((key, v) :: object) stack hn.2]
    · simp
    · intro k hk
      simp only [List.map_cons, List.mem_cons, not_or]
      refine ⟨?_, hd k (by simp [hk])⟩
      rintro rfl
      exact hn.1 hk

theorem member_stack_append (members : List (String × dynamic_t)) (key : String)
    (v : dynamic_t) :
    member_stack (members ++ [(key, v)]) = member_stack members ++ [v, dynamic_t.string key] := by
  induction members with
  | nil => rfl
  | cons m rest ih =>
    obtain ⟨k, w⟩ := m
    simp [member_stack, ih]

theorem replay_cons (event : SaxEvent) (events : List SaxEvent) (r next : dynamic_reader_t)
    (h : r.handle event = some next) :
    dynamic_reader_t.replay (event :: events) r = dynamic_reader_t.replay events next := by
  simp [dynamic_reader_t.replay, h]

mutual
/-- Replaying the stream of a value with distinct member names pushes the value. -/
theorem replay_events : ∀ (v : dynamic_t), v.distinct_keys = true →
    ∀ (rest : List SaxEvent) (stack : List dynamic_t),
      dynamic_reader_t.replay (v.events ++ rest) ⟨stack⟩ =
        dynamic_reader_t.replay rest ⟨v :: stack⟩
  | .null, _, rest, stack => by
    simp only [dynamic_t.events, List.singleton_append]
    exact replay_cons _ _ _ _ rfl
  | .bool v, _, rest, stack => by
    simp only [dynamic_t.events, List.singleton_append]
    exact replay_cons _ _ _ _ rfl
  | .int v, _, rest, stack => by
    simp only [dynamic_t.events]
    split <;> exact replay_cons _ _ _ _ rfl
  | .uint v, _, rest, stack => by
    simp only [dynamic_t.events]
    split <;> exact replay_cons _ _ _ _ rfl
  | .double v, _, rest, stack => by
    simp only [dynamic_t.events, List.singleton_append]
    exact replay_cons _ _ _ _ rfl
  | .string v, _, rest, stack => by
    simp only [dynamic_t.events, List.singleton_append]
    exact replay_cons _ _ _ _ rfl
  | .array items, h, rest, stack => by
    have hi : dynamic_t.distinct_keys_items items = true := by
      simpa [dynamic_t.distinct_keys] using h
    have hloop := end_array_loop_takes items.reverse [] stack
    rw [List.length_reverse, List.reverse_reverse, List.append_nil] at hloop
    simp only [dynamic_t.events, List.cons_append, List.append_assoc, List.singleton_append]
    rw [replay_cons .StartArray _ ⟨stack⟩ ⟨stack⟩ rfl, replay_events_items items hi]
    exact replay_cons _ _ _ _ (by simp [dynamic_reader_t.handle, hloop])
  | .object members, h, rest, stack => by
    have h2 : (members.map Prod.fst).Nodup ∧
        dynamic_t.distinct_keys_members members = true := by
      simpa [dynamic_t.distinct_keys] using h
    have hloop := end_object_loop_takes members.reverse [] stack
      (by simpa [List.map_reverse] using h2.1) (by simp)
    rw [List.length_reverse, List.reverse_reverse, List.append_nil] at hloop
    simp only [dynamic_t.events, List.cons_append, List.append_assoc, List.singleton_append]
    rw [replay_cons .StartObject _ ⟨stack⟩ ⟨stack⟩ rfl, replay_events_members members h2.2]
    exact replay_cons _ _ _ _ (by simp [dynamic_reader_t.handle, hloop])
/-- Replaying the streams of the elements of an array pushes them in order. -/
theorem replay_events_items : ∀ (items : List dynamic_t),
    dynamic_t.distinct_keys_items items = true →
    ∀ (rest : List SaxEvent) (stack : List dynamic_t),
      dynamic_reader_t.replay (dynamic_t.events_items items ++ rest) ⟨stack⟩ =
        dynamic_reader_t.replay rest ⟨items.reverse ++ stack⟩
  | [], _, rest, stack => by simp [dynamic_t.events_items]
  | v :: items, h, rest, stack => by
    have h2 : v.distinct_keys = true ∧ dynamic_t.distinct_keys_items items = true := by
      simpa [dynamic_t.distinct_keys_items] using h
    simp only [dynamic_t.events_items, List.append_assoc]
    rw [replay_events v h2.1, replay_events_items items h2.2]
    simp
/-- Replaying the streams of the members of an object pushes each name and value. -/
theorem replay_events_members : ∀ (members : List (String × dynamic_t)),
    dynamic_t.distinct_keys_members members = true →
    ∀ (rest : List SaxEvent) (stack : List dynamic_t),
      dynamic_reader_t.replay (dynamic_t.events_members members ++ rest) ⟨stack⟩ =
        dynamic_reader_t.replay rest ⟨member_stack members.reverse ++ stack⟩
  | [], _, rest, stack => by simp [dynamic_t.events_members, member_stack]
  | (key, v) :: members, h, rest, stack => by
    have h2 : v.distinct_keys = true ∧ dynamic_t.distinct_keys_members members = true := by
      simpa [dynamic_t.distinct_keys_members] using h
    simp only [dynamic_t.events_members, List.cons_append, List.append_assoc]
    rw [replay_cons (.String key) _ ⟨stack⟩ ⟨dynamic_t.string key :: stack⟩ rfl,
      replay_events v h2.1, replay_events_members members h2.2]
    simp [member_stack_append]
end

/-- C26: for every JSON value whose objects have pairwise distinct member names, replaying
the SAX event stream of the value on a reader with an empty stack succeeds and leaves
exactly one element on the stack, and `Result()` is the value itself: the scalars as they
were, the elements of every array in the order of the document, every object with its
members. -/
theorem reader_rebuilds_value (v : dynamic_t) (h : v.distinct_keys = true) :
    dynamic_reader_t.replay v.events ⟨[]⟩ = some ⟨[v]⟩ ∧
    (∀ r, dynamic_reader_t.replay v.events ⟨[]⟩ = some r →
      r.m_stack.length = 1 ∧ r.Result = some v) := by
  have hr : dynamic_reader_t.replay v.events ⟨[]⟩ = some ⟨[v]⟩ := by
    have := replay_events v h [] []
    rw [List.append_nil] at this
    rw [this]
    rfl
  refine ⟨hr, ?_⟩
  intro r hrr
  rw [hr] at hrr
  cases hrr
  exact ⟨rfl, rfl⟩

/-- Witness of C26: the sample configuration, an object that holds an array and an empty
object. -/
theorem reader_rebuilds_value_witness :
    sample_config.distinct_keys = true ∧
    dynamic_reader_t.replay sample_config.events ⟨[]⟩ = some ⟨[sample_config]⟩ :=
  ⟨by decide, (reader_rebuilds_value sample_config (by decide)).1⟩

end yappi
